import Mathlib

/-!
Formal model of the RLM ("Recursive Language Model") orchestrator core of
this repository: the marker-protocol codec, the sandboxed execution loop,
the delegation resolver, the streaming route, and the tree-state fold.

The definitions are translated from the TypeScript sources:
* `src/lib/rlm/e2b-client.ts` — two revisions of the sandbox client are
  present in the repository: an E2B revision (first block of the file) and
  a Daytona revision; `src/unnamed/part_003` holds the most complete
  Daytona revision (with crash handling and large-context upload), which
  is the one modelled as `execLoopGo` below.  The E2B revision's marker
  classification order is modelled separately as `decodeE2B`.
* `src/app/api/rlm/execute/route.ts` — the POST route (root node, code
  generation, recursive delegation handler, terminal events).
* `src/lib/rlm/tree-state.ts` — the pure event fold.
* `src/lib/rlm/rlm-prompt.ts` — prompt constants (the sub-agent system
  instruction `RLM_SUB_PROMPT` is reproduced verbatim; the long
  `RLM_SYSTEM_PROMPT` text participates only as an opaque payload of
  model-completion calls and is abbreviated to its first line, which no
  theorem below inspects).

Timestamps (`Date.now()`) are modelled as the constant `0`, and the
rate-limit delays (`setTimeout`) as no-ops: no claim concerns real time.
Asynchronous batch resolution (`Promise.all`) is modelled as the
sequential linearization that resolves the prompts of a group in order;
`Promise.all` itself preserves response order, which is what the loop
consumes.
-/

namespace RLM

/-! ### JS string primitives used by the client code -/

/-- Whitespace test of JS `String.prototype.trim` (the ASCII range). -/
def jsWS (c : Char) : Bool :=
  c == ' ' || c == '\t' || c == '\n' || c == '\r' || c == '\x0b' || c == '\x0c'

/-- JS `trim` on a character list. -/
def jsTrimList (l : List Char) : List Char :=
  ((l.dropWhile jsWS).reverse.dropWhile jsWS).reverse

/-- JS `String.prototype.trim`. -/
def jsTrim (s : String) : String := ⟨jsTrimList s.data⟩

/-- Character-list version of `isPrefixOf`. -/
def isPre : List Char → List Char → Bool
  | [], _ => true
  | _ :: _, [] => false
  | p :: ps, c :: cs => p == c && isPre ps cs

/-- First occurrence of `pat` inside a list: `splitFirst pat s = some (a, b)`
iff `s = a ++ pat ++ b` with `a` shortest. -/
def splitFirst (pat : List Char) : List Char → Option (List Char × List Char)
  | [] => if pat.isEmpty then some ([], []) else none
  | c :: cs =>
    if isPre pat (c :: cs) then some ([], (c :: cs).drop pat.length)
    else
      match splitFirst pat cs with
      | some (a, b) => some (c :: a, b)
      | none => none

/-- JS `String.prototype.includes` on character lists. -/
def containsSub (pat s : List Char) : Bool := (splitFirst pat s).isSome

/-- Model of the lazy JS regex `A([\s\S]*?)B` (as in
`output.match(/__RLM_FINAL_START__\n([\s\S]*?)\n__RLM_FINAL_END__/)`):
the match starts at the leftmost position where `A` occurs followed
(anywhere later) by `B`, and the capture is the shortest text up to the
first later occurrence of `B`. -/
def matchBetween (a b : List Char) : List Char → Option (List Char)
  | [] => none
  | c :: cs =>
    if isPre a (c :: cs) then
      match splitFirst b ((c :: cs).drop a.length) with
      | some (payload, _) => some payload
      | none => matchBetween a b cs
    else matchBetween a b cs

/-- String wrapper for `matchBetween`: capture group of `a([\s\S]*?)b`. -/
def extractBetween (a b out : String) : Option String :=
  (matchBetween a.data b.data out.data).map fun l => ⟨l⟩

/-- `output.match(/__RLM_FINAL_START__\n([\s\S]*?)\n__RLM_FINAL_END__/)`. -/
def extractFinal (out : String) : Option String :=
  extractBetween "__RLM_FINAL_START__\n" "\n__RLM_FINAL_END__" out

/-- `output.match(/__LLM_BATCH_START__\n([\s\S]*?)\n__LLM_BATCH_END__/)`. -/
def extractBatch (out : String) : Option String :=
  extractBetween "__LLM_BATCH_START__\n" "\n__LLM_BATCH_END__" out

/-- `output.match(/__LLM_QUERY_START__\n([\s\S]*?)\n__LLM_QUERY_END__/)`. -/
def extractSingle (out : String) : Option String :=
  extractBetween "__LLM_QUERY_START__\n" "\n__LLM_QUERY_END__" out

/-! ### Marker-protocol decode (classification step of the execution loops)

Both loop revisions classify one run's raw captured output by attempting
the three marker regexes in a fixed order and acting on the first match.
The Daytona revision (`src/unnamed/part_003`, lines 194–243) checks
FINAL, then BATCH, then SINGLE; the E2B revision
(`src/lib/rlm/e2b-client.ts`, lines 142–319) checks BATCH, then SINGLE,
then FINAL. -/

/-- Decode result of one run's raw output. -/
inductive Decoded
  | finalResult (text : String)
  | pendingBatch (payload : String)
  | pendingSingle (prompt : String)
  | noMarker
deriving DecidableEq, Repr

/-- Classification order of the Daytona loop (`part_003` lines 194–243):
FINAL first, then BATCH, then SINGLE; payloads are trimmed exactly where
the loop trims them. -/
def decodeDaytona (out : String) : Decoded :=
  match extractFinal out with
  | some p => .finalResult (jsTrim p)
  | none =>
    match extractBatch out with
    | some p => .pendingBatch (jsTrim p)
    | none =>
      match extractSingle out with
      | some p => .pendingSingle (jsTrim p)
      | none => .noMarker

/-- Classification order of the E2B loop (`e2b-client.ts` lines 142–319):
BATCH first, then SINGLE, and FINAL only last. -/
def decodeE2B (out : String) : Decoded :=
  match extractBatch out with
  | some p => .pendingBatch (jsTrim p)
  | none =>
    match extractSingle out with
    | some p => .pendingSingle (jsTrim p)
    | none =>
      match extractFinal out with
      | some p => .finalResult (jsTrim p)
      | none => .noMarker

/-- A raw output containing both a complete FINAL marker pair and a
complete batch-pending marker pair. -/
def bothMarkersOut : String :=
  "__RLM_FINAL_START__\nanswer\n__RLM_FINAL_END__\n__LLM_BATCH_START__\n[\"q1\"]\n__LLM_BATCH_END__\n"

/-- C1 counterexample: the E2B execution loop (`src/lib/rlm/e2b-client.ts`
lines 142–319, cited by the claim) checks the BATCH marker before the
FINAL marker, so an output containing both a complete FINAL pair and a
complete batch-pending pair is classified as a pending batch, not as the
final result — the claim as stated is false on that loop. -/
theorem C1_counterexample :
    decodeE2B bothMarkersOut = .pendingBatch "[\"q1\"]" ∧
      decodeE2B bothMarkersOut ≠ .finalResult "answer" := by
  constructor
  · decide
  · decide

/-- C1 amended: in the Daytona execution loop (`src/unnamed/part_003`
lines 194–243) the decode is first-match-wins with FINAL checked before
BATCH before SINGLE, so every output containing a complete FINAL pair is
classified as the decoded final result and never as a pending call; in
the E2B loop the order is BATCH, SINGLE, FINAL, so an output containing a
complete batch-pending pair is always classified as the pending batch. -/
theorem C1_decode_priority (out out2 : String)
    (h : (extractFinal out).isSome) (h2 : (extractBatch out2).isSome) :
    decodeDaytona out = .finalResult (jsTrim ((extractFinal out).getD "")) ∧
      decodeE2B out2 = .pendingBatch (jsTrim ((extractBatch out2).getD "")) := by
  constructor
  · cases hf : extractFinal out with
    | none => rw [hf] at h; simp at h
    | some p => simp [decodeDaytona, hf]
  · cases hb : extractBatch out2 with
    | none => rw [hb] at h2; simp at h2
    | some p => simp [decodeE2B, hb]

/-- Witness for `C1_decode_priority` at the concrete two-marker output. -/
theorem C1_decode_priority_witness :
    decodeDaytona bothMarkersOut =
        .finalResult (jsTrim ((extractFinal bothMarkersOut).getD "")) ∧
      decodeE2B bothMarkersOut =
        .pendingBatch (jsTrim ((extractBatch bothMarkersOut).getD "")) :=
  C1_decode_priority bothMarkersOut bothMarkersOut (by decide) (by decide)

/-! ### Data model (`src/lib/rlm/types`, reproduced in
`src/lib/rlm/oolong-generator.ts` lines 154–196)

Node identifiers (`nanoid(8)`) are modelled as natural numbers drawn from
a fresh-id counter; timestamps as the constant `0`. -/

/-- `RLMNodeStatus`. -/
inductive NodeStatus
  | pending
  | executing
  | llmCalling
  | completed
  | error
deriving DecidableEq, Repr

/-- `RLMNode`. -/
structure RLMNode where
  id : Nat
  parentId : Option Nat
  depth : Nat
  status : NodeStatus
  code : String
  output : String
  error : Option String := none
  llmPrompt : Option String := none
  llmResponse : Option String := none
  contextId : String
  startedAt : Nat := 0
  completedAt : Option Nat := none
deriving DecidableEq, Repr

/-- `RLMEvent` (the SSE event union). -/
inductive RLMEvent
  | nodeCreated (node : RLMNode)
  | nodeStatus (nodeId : Nat) (status : NodeStatus)
  | nodeOutput (nodeId : Nat) (output : String)
  | nodeLlmStart (nodeId : Nat) (prompt : String)
  | nodeLlmEnd (nodeId : Nat) (response : String)
  | nodeError (nodeId : Nat) (error : String)
  | executionComplete (result : String)
  | executionError (error : String)
deriving DecidableEq, Repr

/-- Overall run status of `RLMTreeState`. -/
inductive TreeStatus
  | idle
  | running
  | completed
  | error
deriving DecidableEq, Repr

/-- `RLMTreeState`. -/
structure RLMTreeState where
  nodes : List RLMNode
  rootContextId : String
  status : TreeStatus
  finalResult : Option String := none
  error : Option String := none
deriving DecidableEq, Repr

/-- `createInitialTreeState` (`src/lib/rlm/tree-state.ts` lines 4–10). -/
def createInitialTreeState : RLMTreeState :=
  { nodes := [], rootContextId := "", status := .idle }

/-- `treeStateReducer` (`src/lib/rlm/tree-state.ts` lines 13–84).
`state.rootContextId || event.node.contextId` keeps the existing id
unless it is the empty string; `Date.now()` is modelled as `0`. -/
def treeStateReducer (state : RLMTreeState) (event : RLMEvent) : RLMTreeState :=
  match event with
  | .nodeCreated node =>
    { state with
      status := .running
      rootContextId :=
        if state.rootContextId = "" then node.contextId else state.rootContextId
      nodes := state.nodes ++ [node] }
  | .nodeStatus nodeId status =>
    { state with
      nodes := state.nodes.map fun node =>
        if node.id = nodeId then
          { node with
            status := status
            completedAt :=
              if status = .completed ∨ status = .error then some 0 else none }
        else node }
  | .nodeOutput nodeId output =>
    { state with
      nodes := state.nodes.map fun node =>
        if node.id = nodeId then
          { node with output := node.output ++ output ++ "\n" }
        else node }
  | .nodeLlmStart nodeId prompt =>
    { state with
      nodes := state.nodes.map fun node =>
        if node.id = nodeId then { node with llmPrompt := some prompt } else node }
  | .nodeLlmEnd nodeId response =>
    { state with
      nodes := state.nodes.map fun node =>
        if node.id = nodeId then
          { node with llmResponse := some response, code := response }
        else node }
  | .nodeError nodeId err =>
    { state with
      nodes := state.nodes.map fun node =>
        if node.id = nodeId then
          { node with error := some err, status := .error }
        else node }
  | .executionComplete result =>
    { state with status := .completed, finalResult := some result }
  | .executionError err =>
    { state with status := .error, error := some err }

/-- Folding an ordered event sequence into `RLMTreeState`. -/
def foldTree (evs : List RLMEvent) : RLMTreeState :=
  evs.foldl treeStateReducer createInitialTreeState

/-! ### JSON string encoding (`JSON.stringify` of a string, and the
`json.dumps` array literal the Python stub prints) -/

/-- Lower-case hex digit. -/
def hexDigit (n : Nat) : Char :=
  if n < 10 then Char.ofNat (48 + n) else Char.ofNat (87 + n)

/-- Escape of one character inside a JSON string literal. -/
def jsonEscapeChar (c : Char) : List Char :=
  if c = '"' then ['\\', '"']
  else if c = '\\' then ['\\', '\\']
  else if c = '\x08' then ['\\', 'b']
  else if c = '\x0c' then ['\\', 'f']
  else if c = '\n' then ['\\', 'n']
  else if c = '\r' then ['\\', 'r']
  else if c = '\t' then ['\\', 't']
  else if c.toNat < 32 then
    ['\\', 'u', '0', '0', hexDigit (c.toNat / 16), hexDigit (c.toNat % 16)]
  else [c]

/-- `JSON.stringify` applied to a string. -/
def jsonQuote (s : String) : String :=
  ⟨'"' :: s.data.foldr (fun c acc => jsonEscapeChar c ++ acc) ['"']⟩

/-- `json.dumps` applied to a list of strings (default separator `", "`). -/
def jsonArrayLit (xs : List String) : String :=
  "[" ++ String.intercalate ", " (xs.map jsonQuote) ++ "]"

/-! ### The delegation stubs of the runtime preamble
(`src/unnamed/part_003`, `RLMSandbox.initialize`, lines 107–137)

The preamble defines `llm_query` / `llm_query_batch` so that a cache hit
returns immediately without printing anything, and a miss prints the
pending-call marker pair and terminates the process with `sys.exit(42)`
(single) or `sys.exit(43)` (batch).  `cache = none` models the first
iteration, in which no `_llm_cache` global has been injected. -/

/-- Outcome of one stub call: a returned value with no output, or the
printed marker block plus the abnormal exit status. -/
inductive StubOutcome (α : Type)
  | ret (value : α)
  | pendingExit (printed : String) (exitCode : Nat)
deriving DecidableEq, Repr

/-- Python `prompt in _llm_cache` / `_llm_cache[prompt]`. -/
def cacheLookup (cache : List (String × String)) (p : String) : Option String :=
  (cache.find? fun kv => kv.1 == p).map (·.2)

/-- `llm_query` from the runtime preamble (`part_003` lines 113–119). -/
def llmQueryStub (cache : Option (List (String × String))) (prompt : String) :
    StubOutcome String :=
  match cache with
  | some m =>
    match cacheLookup m prompt with
    | some r => .ret r
    | none =>
      .pendingExit ("__LLM_QUERY_START__\n" ++ prompt ++ "\n__LLM_QUERY_END__\n") 42
  | none =>
    .pendingExit ("__LLM_QUERY_START__\n" ++ prompt ++ "\n__LLM_QUERY_END__\n") 42

/-- `llm_query_batch` from the runtime preamble (`part_003` lines
121–130). -/
def llmQueryBatchStub (cache : Option (List (String × String)))
    (prompts : List String) : StubOutcome (List String) :=
  match cache with
  | some m =>
    let missing := prompts.filter fun p => (cacheLookup m p).isNone
    if missing.isEmpty then
      .ret (prompts.map fun p => (cacheLookup m p).getD "")
    else
      .pendingExit ("__LLM_BATCH_START__\n" ++ jsonArrayLit missing ++ "\n__LLM_BATCH_END__\n") 43
  | none =>
    .pendingExit ("__LLM_BATCH_START__\n" ++ jsonArrayLit prompts ++ "\n__LLM_BATCH_END__\n") 43

/-- C7: round-trip through the cache preamble — once a prompt→response
pair is present in the injected cache, `llm_query` on exactly that prompt
returns the cached response immediately and prints no pending-call
marker, and `llm_query_batch` on a list of fully cached prompts returns
all cached responses and prints no marker either. -/
theorem C7_cache_roundtrip (cache : List (String × String)) (p r : String)
    (h : cacheLookup cache p = some r) (ps : List String)
    (hall : ∀ q ∈ ps, (cacheLookup cache q).isSome) :
    llmQueryStub (some cache) p = .ret r ∧
      (∀ s e, llmQueryStub (some cache) p ≠ .pendingExit s e) ∧
      llmQueryBatchStub (some cache) ps =
        .ret (ps.map fun q => (cacheLookup cache q).getD "") := by
  refine ⟨?_, ?_, ?_⟩
  · simp [llmQueryStub, h]
  · intro s e
    simp [llmQueryStub, h]
  · have hmiss : (ps.filter fun p => (cacheLookup cache p).isNone) = [] := by
      rw [List.filter_eq_nil_iff]
      intro q hq
      have := hall q hq
      simp [Option.isNone] at this ⊢
      cases hcl : cacheLookup cache q with
      | none => rw [hcl] at this; simp at this
      | some _ => simp
    simp [llmQueryBatchStub, hmiss]

/-- Witness for `C7_cache_roundtrip`: a one-entry cache. -/
theorem C7_cache_roundtrip_witness :
    llmQueryStub (some [("q", "a")]) "q" = .ret "a" ∧
      (∀ s e, llmQueryStub (some [("q", "a")]) "q" ≠ .pendingExit s e) ∧
      llmQueryBatchStub (some [("q", "a")]) ["q"] =
        .ret (["q"].map fun q => (cacheLookup [("q", "a")] q).getD "") :=
  C7_cache_roundtrip [("q", "a")] "q" "a" (by decide) ["q"] (by decide)

/-! ### The aggregate-status machine of the fold (claim C8) -/

/-- The two terminal event kinds. -/
def isTerminalEvent : RLMEvent → Bool
  | .executionComplete _ => true
  | .executionError _ => true
  | _ => false

/-- Events that change the aggregate `status` field of the fold. -/
def statusAffecting : RLMEvent → Bool
  | .nodeCreated _ => true
  | .executionComplete _ => true
  | .executionError _ => true
  | _ => false

/-- Effect of one folded event on the aggregate `status` alone
(projection of `treeStateReducer`). -/
def statusStep (s : TreeStatus) : RLMEvent → TreeStatus
  | .nodeCreated _ => .running
  | .executionComplete _ => .completed
  | .executionError _ => .error
  | _ => s

theorem reducer_status (st : RLMTreeState) (e : RLMEvent) :
    (treeStateReducer st e).status = statusStep st.status e := by
  cases e <;> rfl

theorem foldl_reducer_status (evs : List RLMEvent) :
    ∀ st : RLMTreeState,
      (List.foldl treeStateReducer st evs).status =
        List.foldl statusStep st.status evs := by
  induction evs with
  | nil => intro st; rfl
  | cons e evs ih =>
    intro st
    rw [List.foldl_cons, List.foldl_cons, ih, reducer_status]

theorem statusStep_of_notAffecting (s : TreeStatus) (e : RLMEvent)
    (h : statusAffecting e = false) : statusStep s e = s := by
  cases e <;> simp_all [statusAffecting, statusStep]

theorem foldl_statusStep_const (l : List RLMEvent) :
    ∀ s : TreeStatus, (∀ x ∈ l, statusAffecting x = false) →
      List.foldl statusStep s l = s := by
  induction l with
  | nil => intro s _; rfl
  | cons e l ih =>
    intro s h
    rw [List.foldl_cons, statusStep_of_notAffecting s e (h e (by simp))]
    exact ih s fun x hx => h x (by simp [hx])

/-- Sequences in which no status-affecting event follows a terminal
event.  Event sequences emitted by the route satisfy this except on the
failing-persistence path, where only further terminal events (no
`node:created`) follow. -/
def okAfterTerminal : List RLMEvent → Bool
  | [] => true
  | e :: rest =>
    (if isTerminalEvent e then rest.all fun x => !statusAffecting x else true)
      && okAfterTerminal rest

theorem okAfterTerminal_extract :
    ∀ l1 : List RLMEvent, ∀ e l2, okAfterTerminal (l1 ++ e :: l2) = true →
      isTerminalEvent e = true → ∀ x ∈ l2, statusAffecting x = false := by
  intro l1
  induction l1 with
  | nil =>
    intro e l2 h hterm x hx
    simp only [List.nil_append, okAfterTerminal, hterm, if_true, Bool.and_eq_true,
      List.all_eq_true] at h
    have := h.1 x hx
    simpa using this
  | cons a l1 ih =>
    intro e l2 h hterm x hx
    simp only [List.cons_append, okAfterTerminal, Bool.and_eq_true] at h
    exact ih e l2 h.2 hterm x hx

/-- C8 counterexample: the tree-state reducer sets `status` back to
`running` on any `node:created` event, including one folded after a
terminal event, so "once terminal no further folded event returns the
aggregate status to running" is false for arbitrary event sequences. -/
theorem C8_counterexample :
    (foldTree [.nodeCreated
        { id := 1, parentId := none, depth := 0, status := .executing,
          code := "", output := "", contextId := "ctx" },
      .executionComplete "done"]).status = .completed ∧
    (foldTree [.nodeCreated
        { id := 1, parentId := none, depth := 0, status := .executing,
          code := "", output := "", contextId := "ctx" },
      .executionComplete "done",
      .nodeCreated
        { id := 2, parentId := none, depth := 0, status := .executing,
          code := "", output := "", contextId := "ctx" }]).status = .running := by
  exact ⟨rfl, rfl⟩

/-- C8 amended: for event sequences in which no status-affecting event
(`node:created`, `execution:complete`, `execution:error`) follows a
terminal event, the fold satisfies the claimed invariant: the aggregate
status is `running` immediately after any `node:created` event, and once
a terminal event is folded the status is `completed` or `error` and no
later event of the sequence changes it (in particular it never returns to
`running`).  An out-of-order `node:created` folded after a terminal
event, however, does reset the status to `running`
(`C8_counterexample`). -/
theorem C8_status_machine (evs : List RLMEvent) (h : okAfterTerminal evs = true) :
    (∀ l1 n l2, evs = l1 ++ RLMEvent.nodeCreated n :: l2 →
      (foldTree (l1 ++ [RLMEvent.nodeCreated n])).status = .running) ∧
    (∀ l1 e l2, evs = l1 ++ e :: l2 → isTerminalEvent e = true →
      (foldTree evs).status = (foldTree (l1 ++ [e])).status ∧
        ((foldTree evs).status = .completed ∨ (foldTree evs).status = .error)) := by
  constructor
  · intro l1 n l2 _
    unfold foldTree
    rw [foldl_reducer_status, List.foldl_append, List.foldl_cons, List.foldl_nil]
    rfl
  · intro l1 e l2 hsplit hterm
    have hconst : ∀ x ∈ l2, statusAffecting x = false := by
      rw [hsplit] at h
      exact okAfterTerminal_extract l1 e l2 h hterm
    have hdecomp : evs = (l1 ++ [e]) ++ l2 := by
      rw [hsplit]; simp
    have hstat : (foldTree evs).status = (foldTree (l1 ++ [e])).status := by
      rw [hdecomp]
      unfold foldTree
      rw [foldl_reducer_status, foldl_reducer_status, List.foldl_append]
      exact foldl_statusStep_const l2 _ hconst
    refine ⟨hstat, ?_⟩
    rw [hstat]
    unfold foldTree
    rw [foldl_reducer_status, List.foldl_append, List.foldl_cons, List.foldl_nil]
    cases e <;> simp [isTerminalEvent] at hterm <;> simp [statusStep]

/-- Witness for `C8_status_machine` at a concrete two-event run. -/
theorem C8_status_machine_witness :
    (foldTree [RLMEvent.nodeCreated
        { id := 1, parentId := none, depth := 0, status := .executing,
          code := "", output := "", contextId := "ctx" },
      RLMEvent.executionComplete "done"]).status =
      (foldTree ([RLMEvent.nodeCreated
          { id := 1, parentId := none, depth := 0, status := .executing,
            code := "", output := "", contextId := "ctx" }] ++
        [RLMEvent.executionComplete "done"])).status ∧
      ((foldTree [RLMEvent.nodeCreated
          { id := 1, parentId := none, depth := 0, status := .executing,
            code := "", output := "", contextId := "ctx" },
        RLMEvent.executionComplete "done"]).status = .completed ∨
       (foldTree [RLMEvent.nodeCreated
          { id := 1, parentId := none, depth := 0, status := .executing,
            code := "", output := "", contextId := "ctx" },
        RLMEvent.executionComplete "done"]).status = .error) :=
  (C8_status_machine _ (by decide)).2
    [RLMEvent.nodeCreated
      { id := 1, parentId := none, depth := 0, status := .executing,
        code := "", output := "", contextId := "ctx" }]
    (RLMEvent.executionComplete "done") [] rfl rfl

/-! ### Effect model

The orchestrator interacts with three external collaborators: the
sandboxed-interpreter provider (`sandbox.process.codeRun`), the
model-completion provider (`generateText`) and the persistence client
(`uc.append`).  Their outcomes are supplied by an `Env` of oracles
indexed by per-kind call counters; `nanoid(8)` is modelled by a fresh-id
counter.  A computation is state → (result-or-thrown-error, emitted
events, state); concurrent batch resolution is linearized in prompt
order. -/

/-- Counters: fresh node ids, sandbox runs, model-completion calls,
sandbox creations. -/
structure S where
  idCtr : Nat := 0
  runCtr : Nat := 0
  llmCtr : Nat := 0
  sbCtr : Nat := 0
deriving DecidableEq, Repr

/-- Result of one effectful computation: value or thrown error, the
events sent so far, and the final counters. -/
structure Out (α : Type) where
  res : Except String α
  evs : List RLMEvent
  st : S

/-- The effect monad. -/
def M (α : Type) := S → Out α

def M.pure {α : Type} (a : α) : M α := fun s => ⟨.ok a, [], s⟩

def M.bind {α β : Type} (m : M α) (k : α → M β) : M β := fun s =>
  match m s with
  | ⟨.error e, tr, s1⟩ => ⟨.error e, tr, s1⟩
  | ⟨.ok a, tr, s1⟩ =>
    let o := k a s1
    ⟨o.res, tr ++ o.evs, o.st⟩

instance : Pure M := ⟨fun a => M.pure a⟩

instance : Bind M := ⟨fun m k => M.bind m k⟩

/-- `sendEvent`. -/
def emit (e : RLMEvent) : M Unit := fun s => ⟨.ok (), [e], s⟩

/-- A thrown JS exception (with its message). -/
def throwErr {α : Type} (e : String) : M α := fun s => ⟨.error e, [], s⟩

/-- `nanoid(8)`: model node-id allocation as a fresh counter. -/
def freshId : M Nat := fun s => ⟨.ok s.idCtr, [], { s with idCtr := s.idCtr + 1 }⟩

/-- `try { m } catch (e) { h e }`. -/
def tryCatch (m : M Unit) (h : String → M Unit) : M Unit := fun s =>
  match m s with
  | ⟨.error e, tr, s1⟩ =>
    let o := h e s1
    ⟨o.res, tr ++ o.evs, o.st⟩
  | o => o

/-- Outcome of one `sandbox.process.codeRun` call
(`src/unnamed/part_003` lines 157–176): the call may throw, return a
non-object, or return `{ result, exitCode }` — with `exitCode` possibly
`undefined` (`none`). -/
inductive RunRes
  | threw (msg : String)
  | invalidRes
  | ok (output : String) (exitCode : Option Int)
deriving DecidableEq, Repr

/-- Oracles for the external collaborators. -/
structure Env where
  runRes : Nat → String → RunRes
  genText : Nat → Option String → String → Nat → Except String String
  sandboxNew : Nat → Except String Unit
  appendRes : Except String Unit
  newContextId : String

/-- One `codeRun` call: consult the run oracle at the current run
counter with the full code that is executed. -/
def nextRun (env : Env) (code : String) : M RunRes := fun s =>
  ⟨.ok (env.runRes s.runCtr code), [], { s with runCtr := s.runCtr + 1 }⟩

/-- One `generateText` call (system instruction, prompt, max output
tokens); the oracle may throw. -/
def nextGen (env : Env) (sys : Option String) (prompt : String) (maxTok : Nat) :
    M String := fun s =>
  ⟨env.genText s.llmCtr sys prompt maxTok, [], { s with llmCtr := s.llmCtr + 1 }⟩

/-- `await uc.append(...)`. -/
def ucAppend (env : Env) : M Unit := fun s =>
  ⟨env.appendRes, [], s⟩

/-- JS `a || b` on strings (empty string is falsy). -/
def jsOr (a b : String) : String := if a = "" then b else a

/-! ### Sandbox session (`src/unnamed/part_003`, `initialize`,
lines 80–139) -/

/-- Context loader of the runtime preamble: inline JSON embedding, or the
temp-file read when the context exceeds 1 MiB (`contextSize > 1024 *
1024`; JS measures UTF-16 units, modelled as characters). -/
def contextLoader (context : String) : String :=
  if context.length > 1024 * 1024 then
    "with open(\x27/tmp/context.txt\x27, \x27r\x27) as f:\n    context = f.read()"
  else
    "context = " ++ jsonQuote context

/-- The runtime preamble `this.runtimePrefix` prepended to every
execution (`part_003` lines 107–137). -/
def buildRuntimePre (context : String) : String :=
  "\nimport json\nimport sys\n\n" ++ contextLoader context ++
  "\n\ndef llm_query(prompt):\n    if \x27_llm_cache\x27 in globals() and prompt in _llm_cache:\n        return _llm_cache[prompt]\n    print(\"__LLM_QUERY_START__\")\n    print(prompt)\n    print(\"__LLM_QUERY_END__\")\n    sys.exit(42)\n\ndef llm_query_batch(prompts):\n    if \x27_llm_cache\x27 in globals():\n        missing = [p for p in prompts if p not in _llm_cache]\n        if not missing:\n            return [_llm_cache[p] for p in prompts]\n        prompts = missing\n    print(\"__LLM_BATCH_START__\")\n    print(json.dumps(prompts))\n    print(\"__LLM_BATCH_END__\")\n    sys.exit(43)\n\ndef FINAL(result):\n    print(\"__RLM_FINAL_START__\")\n    print(str(result))\n    print(\"__RLM_FINAL_END__\")\n\n"

/-- `createRLMSandbox` (`part_003` lines 266–276): provision (or reuse)
the shared sandbox — outcome supplied by the creation oracle, counted by
`sbCtr` — and install the runtime preamble for the given context.
Returns the preamble used for this session. -/
def createRLMSandboxM (env : Env) (context : String) : M String := fun s =>
  match env.sandboxNew s.sbCtr with
  | .error e => ⟨.error e, [], { s with sbCtr := s.sbCtr + 1 }⟩
  | .ok _ => ⟨.ok (buildRuntimePre context), [], { s with sbCtr := s.sbCtr + 1 }⟩

/-! ### The clean-output filter of the loop
(`output.replace(/__LLM_.*?__|__RLM_.*?__/g, '').trim()`, `part_003`
line 189) -/

/-- Lazy close of `.*?__` (the dot does not cross newlines): the
remainder after the nearest following `__`. -/
def lazyClose : List Char → Option (List Char)
  | '_' :: '_' :: rest => some rest
  | [] => none
  | '\n' :: _ => none
  | _ :: rest => lazyClose rest

/-- `replace(/__LLM_.*?__|__RLM_.*?__/g, '')` on a character list, with
fuel ≥ list length. -/
def stripGo : Nat → List Char → List Char
  | 0, l => l
  | _ + 1, [] => []
  | fuel + 1, c :: rest =>
    if isPre "__LLM_".data (c :: rest) || isPre "__RLM_".data (c :: rest) then
      match lazyClose ((c :: rest).drop 6) with
      | some rest2 => stripGo fuel rest2
      | none => c :: stripGo fuel rest
    else c :: stripGo fuel rest

/-- The marker-stripped output used for `node:output` streaming. -/
def stripMarkersD (s : String) : String := ⟨stripGo s.data.length s.data⟩

/-! ### `JSON.parse` of the batch payload, restricted to what the loop
consumes (`const prompts: string[] = JSON.parse(batchMatch[1].trim())`,
`part_003` line 203): an array of strings.  Malformed JSON — and any JSON
value that is not an array of strings, which would equally abort the
iteration at runtime — is modelled as the thrown parse failure. -/

def jsonWS (c : Char) : Bool := c == ' ' || c == '\t' || c == '\n' || c == '\r'

def jsonSkipWS (l : List Char) : List Char := l.dropWhile jsonWS

def hexVal (c : Char) : Option Nat :=
  if '0' ≤ c ∧ c ≤ '9' then some (c.toNat - 48)
  else if 'a' ≤ c ∧ c ≤ 'f' then some (c.toNat - 87)
  else if 'A' ≤ c ∧ c ≤ 'F' then some (c.toNat - 55)
  else none

/-- Body of a JSON string literal (after the opening quote), fuel ≥
remaining length. -/
def parseStrBody : Nat → List Char → Option (List Char × List Char)
  | 0, _ => none
  | _ + 1, [] => none
  | fuel + 1, c :: rest =>
    if c = '"' then some ([], rest)
    else if c = '\\' then
      match rest with
      | [] => none
      | e :: rest2 =>
        let cont := fun (ch : Char) (r : List Char) =>
          match parseStrBody fuel r with
          | some (body, r2) => some (ch :: body, r2)
          | none => none
        if e = '"' then cont '"' rest2
        else if e = '\\' then cont '\\' rest2
        else if e = '/' then cont '/' rest2
        else if e = 'b' then cont '\x08' rest2
        else if e = 'f' then cont '\x0c' rest2
        else if e = 'n' then cont '\n' rest2
        else if e = 'r' then cont '\r' rest2
        else if e = 't' then cont '\t' rest2
        else if e = 'u' then
          match rest2 with
          | h1 :: h2 :: h3 :: h4 :: rest3 =>
            match hexVal h1, hexVal h2, hexVal h3, hexVal h4 with
            | some a, some b, some c2, some d =>
              cont (Char.ofNat (((a * 16 + b) * 16 + c2) * 16 + d)) rest3
            | _, _, _, _ => none
          | _ => none
        else none
    else if c.toNat < 32 then none
    else
      match parseStrBody fuel rest with
      | some (body, r2) => some (c :: body, r2)
      | none => none

/-- Comma-separated string items of a JSON array, ending at `]`. -/
def parseArrItems : Nat → List Char → Option (List String × List Char)
  | 0, _ => none
  | fuel + 1, l =>
    match jsonSkipWS l with
    | '"' :: r =>
      match parseStrBody (r.length + 1) r with
      | some (body, r2) =>
        match jsonSkipWS r2 with
        | ']' :: r3 => some ([⟨body⟩], r3)
        | ',' :: r3 =>
          match parseArrItems fuel r3 with
          | some (xs, r4) => some (String.mk body :: xs, r4)
          | none => none
        | _ => none
      | none => none
    | _ => none

/-- `JSON.parse` restricted to an array of strings. -/
def parseJsonArray (s : String) : Option (List String) :=
  match jsonSkipWS s.data with
  | '[' :: r =>
    match jsonSkipWS r with
    | ']' :: r2 => if (jsonSkipWS r2).isEmpty then some [] else none
    | _ =>
      match parseArrItems (r.length + 1) r with
      | some (xs, r2) => if (jsonSkipWS r2).isEmpty then some xs else none
      | none => none
  | _ => none

/-! ### The execution loop (`src/unnamed/part_003`,
`executeWithLlmSupport`, lines 141–259) -/

/-- Result of code execution (`ExecutionResult`). -/
structure ExecutionResult where
  success : Bool
  output : String
  error : Option String := none
  finalResult : Option String := none
deriving DecidableEq, Repr

/-- Child node as constructed by the loop for one pending prompt. -/
def mkChildNode (cid parentId childDepth : Nat) (prompt ctxId : String) : RLMNode :=
  { id := cid, parentId := some parentId, depth := childDepth,
    status := .llmCalling, code := "", output := "",
    llmPrompt := some prompt, contextId := ctxId, startedAt := 0 }

/-- `prompts.slice(i, i + 10)` chunking of the batch loop. -/
def chunksOf10 : List String → List (List String)
  | [] => []
  | x :: xs => ((x :: xs).take 10) :: chunksOf10 ((x :: xs).drop 10)
termination_by l => l.length
decreasing_by simp [List.length_drop]; omega

/-- Lazy node creation for one group of at most 10 prompts
(`part_003` lines 208–212). -/
def createChunkNodes (parentId childDepth : Nat) (ctxId : String) :
    List String → M (List (Nat × String))
  | [] => pure []
  | p :: ps => do
    let cid ← freshId
    emit (.nodeCreated (mkChildNode cid parentId childDepth p ctxId))
    let rest ← createChunkNodes parentId childDepth ctxId ps
    pure ((cid, p) :: rest)

/-- Resolution of one group (`Promise.all`, `part_003` lines 214–219),
linearized in prompt order; the stagger delays are unobservable. -/
def resolveChunk (handlerFn : String → Nat → M String) :
    List (Nat × String) → M (List String)
  | [] => pure []
  | (cid, p) :: rest => do
    let resp ← handlerFn p cid
    emit (.nodeStatus cid .completed)
    let more ← resolveChunk handlerFn rest
    pure (resp :: more)

/-- The batch for-loop (`part_003` lines 207–224): per group of 10,
create nodes, resolve, report progress; the inter-group cooldown delay is
unobservable. -/
def runBatchChunks (handlerFn : String → Nat → M String)
    (parentId childDepth : Nat) (ctxId : String) (total : Nat) :
    List (List String) → Nat → M (List String)
  | [], _ => pure []
  | chunk :: rest, i => do
    let pairs ← createChunkNodes parentId childDepth ctxId chunk
    let resps ← resolveChunk handlerFn pairs
    emit (.nodeOutput parentId (toString (min (i + 10) total) ++ "/" ++ toString total))
    let more ← runBatchChunks handlerFn parentId childDepth ctxId total rest (i + 10)
    pure (resps ++ more)

/-- The injected cache lines of the batch path (`part_003` line 226). -/
def batchCacheLines (prompts responses : List String) : String :=
  String.intercalate "\n" ((prompts.zip responses).map fun pr =>
    "_llm_cache[" ++ jsonQuote pr.1 ++ "] = " ++ jsonQuote pr.2)

/-- One `while (iteration < 100)` loop of `executeWithLlmSupport`
(`part_003` lines 141–259), by recursion on the remaining iteration
budget: run the code, classify the output (FINAL, then BATCH, then
SINGLE), resolve pending calls through `handlerFn`, rebuild the code with
the injected cache, and loop.  `pre` is the session's runtime preamble,
`origCode` the unmodified body re-appended on every rebuild. -/
def execLoopGo (env : Env) (handlerFn : String → Nat → M String)
    (pre ctxId : String) (parentId pDepth : Nat) (origCode : String) :
    Nat → String → String → M ExecutionResult
  | 0, fullOutput, _ =>
    pure { success := false, output := fullOutput, error := some "Max iterations" }
  | fuel + 1, fullOutput, currentCode => do
    let res ← nextRun env (pre ++ currentCode)
    match res with
    | .threw msg =>
      pure { success := false, output := "",
             error := some ("Execution failed: " ++ msg) }
    | .invalidRes =>
      pure { success := false, output := "",
             error := some "Sandbox returned invalid result" }
    | .ok output exitCode =>
      match exitCode with
      | none =>
        pure { success := false, output := fullOutput ++ output,
               error := some ("Sandbox crashed (no exit code). " ++
                 (if output ≠ "" then
                    "Output before crash: " ++ String.mk (output.data.take 500)
                  else "No output captured")) }
      | some ec => do
        let fullOutput2 := fullOutput ++ output
        let clean := jsTrim (stripMarkersD output)
        if clean != "" && !containsSub "__LLM_".data output.data then
          emit (.nodeOutput parentId clean)
        else
          pure ()
        match extractFinal output with
        | some payload =>
          pure { success := true, output := fullOutput2,
                 finalResult := some (jsTrim payload) }
        | none =>
          match extractBatch output with
          | some payload =>
            match parseJsonArray (jsTrim payload) with
            | none => throwErr "Unexpected token in JSON"
            | some prompts => do
              emit (.nodeOutput parentId
                ("Processing " ++ toString prompts.length ++ " queries..."))
              let responses ← runBatchChunks handlerFn parentId (pDepth + 1) ctxId
                prompts.length (chunksOf10 prompts) 0
              execLoopGo env handlerFn pre ctxId parentId pDepth origCode fuel
                fullOutput2
                ("_llm_cache = \x7b\x7d\n" ++ batchCacheLines prompts responses ++
                  "\n" ++ origCode)
          | none =>
            match extractSingle output with
            | some payload => do
              let prompt := jsTrim payload
              let cid ← freshId
              emit (.nodeCreated (mkChildNode cid parentId (pDepth + 1) prompt ctxId))
              let resp ← handlerFn prompt cid
              emit (.nodeStatus cid .completed)
              execLoopGo env handlerFn pre ctxId parentId pDepth origCode fuel
                fullOutput2
                ("_llm_cache = \x7b" ++ jsonQuote prompt ++ ": " ++ jsonQuote resp ++
                  "\x7d\n" ++ origCode)
            | none =>
              if ec = 42 ∨ ec = 43 then
                execLoopGo env handlerFn pre ctxId parentId pDepth origCode fuel
                  fullOutput2 currentCode
              else if ec ≠ 0 then do
                emit (.nodeError parentId output)
                pure { success := false, output := fullOutput2,
                       error := some ("Exit code " ++ toString ec ++ ": " ++ output) }
              else
                pure { success := true, output := fullOutput2,
                       finalResult := some (jsOr (jsTrim fullOutput2) "Done") }

/-- `executeWithLlmSupport(code, llmQueryHandler)`: the loop with its
iteration budget of 100. -/
def executeWithLlmSupport (env : Env) (handlerFn : String → Nat → M String)
    (pre ctxId : String) (parentId pDepth : Nat) (code : String) :
    M ExecutionResult :=
  execLoopGo env handlerFn pre ctxId parentId pDepth code 100 "" code

/-! ### Prompt constants (`src/lib/rlm/rlm-prompt.ts`) and code
extraction (`src/app/api/rlm/execute/route.ts` lines 233–264) -/

/-- `RLM_SUB_PROMPT` (`rlm-prompt.ts` line 145), verbatim. -/
def RLM_SUB_PROMPT : String :=
  "You are a helpful assistant. Answer the question based on the provided context. Be concise and accurate."

/-- `RLM_SYSTEM_PROMPT` (`rlm-prompt.ts` lines 3–142): a ~140-line
instruction text that flows only into the opaque prompt argument of
model-completion calls; no theorem inspects its content. -/
def RLM_SYSTEM_PROMPT : String :=
  "You are a Recursive Language Model (RLM). You MUST solve problems by writing Python code that delegates ALL reasoning to sub-LLMs via llm_query()."

/-- `buildRLMPrompt(query)` (`rlm-prompt.ts` lines 148–158). -/
def buildRLMPrompt (query : String) : String :=
  RLM_SYSTEM_PROMPT ++ "\n\n## User Query\n" ++ query ++
  "\n\n## REMINDER\nYour code MUST call llm_query() multiple times. A solution without llm_query() is INVALID.\n\nWrite Python code that loops through data and calls llm_query() for each check:"

/-- Line test of the code-extraction fallback (route lines 248–257). -/
def looksLikeCode (line : String) : Bool :=
  line.startsWith "import " || line.startsWith "from " || line.startsWith "#" ||
  line.startsWith "context" || line.startsWith "def " || line.startsWith "for " ||
  line.startsWith "while "

/-- `extractPythonCode(text)` (route lines 233–264). -/
def extractPythonCode (text : String) : String :=
  match extractBetween "```python\n" "```" text with
  | some m => jsTrim m
  | none =>
    match extractBetween "```\n" "```" text with
    | some m => jsTrim m
    | none =>
      let lines := text.splitOn "\n"
      match lines.findIdx? looksLikeCode with
      | some i => jsTrim (String.intercalate "\n" (lines.drop i))
      | none => jsTrim text

/-- Root code-generation prompt (route lines 65–77). -/
def rootPrompt (query context : String) (maxDepth : Nat) : String :=
  buildRLMPrompt query ++ "\n\n## Context Preview (first 5000 chars)\n```\n" ++
  String.mk (context.data.take 5000) ++
  "\n```\n\n## Full Context Stats\n- Total length: " ++ toString context.length ++
  " characters\n- Total lines: " ++ toString (context.splitOn "\n").length ++
  "\n- Max recursion depth: " ++ toString maxDepth ++ " (sub-agents " ++
  (if maxDepth > 1 then "CAN" else "cannot") ++
  " spawn their own sub-agents)\n\nNow write Python code to solve the query. Remember: the full context is available as the `context` variable."

/-- Sub-agent code-generation prompt (route lines 115–122). -/
def subAgentPrompt (subPrompt : String) (childDepth maxDepth : Nat) : String :=
  buildRLMPrompt subPrompt ++ "\n\n## Sub-agent Context\nYou are a sub-agent at depth " ++
  toString childDepth ++ "/" ++ toString maxDepth ++
  ".\nYou CAN spawn your own sub-agents using llm_query() or llm_query_batch().\nThe context variable contains: " ++
  String.mk (subPrompt.data.take 500) ++
  "...\n\nWrite Python code to solve this and call FINAL() with your answer."

/-! ### The delegation resolver (`createLlmHandler`, route lines
99–184) -/

/-- Leaf resolution (route lines 169–182): one direct model-completion
call with the fixed system instruction `RLM_SUB_PROMPT`; the response
text is returned verbatim and never re-parsed. -/
def leafResolve (env : Env) (currentDepth : Nat) (subPrompt : String)
    (childNodeId : Nat) : M String := do
  emit (.nodeOutput childNodeId
    ("[depth " ++ toString (currentDepth + 1) ++ "] Max depth reached, answering directly..."))
  nextGen env (some RLM_SUB_PROMPT) subPrompt 4096

/-- `createLlmHandler(currentDepth)` (route lines 99–184), by recursion
on the remaining depth budget.  The handler is always instantiated with
`budget = maxDepth - (currentDepth + 1)`, so the `0` case coincides with
the source's `childDepth >= maxDepth` leaf branch, and in the successor
case the recursive-branch condition `childDepth < maxDepth` matches the
source's. -/
def handlerGo (env : Env) (maxDepth : Nat) (rootCtxId : String) :
    Nat → Nat → String → Nat → M String
  | 0, currentDepth, subPrompt, childNodeId =>
    leafResolve env currentDepth subPrompt childNodeId
  | budget + 1, currentDepth, subPrompt, childNodeId =>
    if currentDepth + 1 < maxDepth then do
      let childDepth := currentDepth + 1
      emit (.nodeOutput childNodeId
        ("[depth " ++ toString childDepth ++ "] Generating Python code (can spawn sub-agents)..."))
      let subText ← nextGen env none (subAgentPrompt subPrompt childDepth maxDepth) 4096
      let subCode := extractPythonCode subText
      emit (.nodeOutput childNodeId
        ("[depth " ++ toString childDepth ++ "] Generated " ++
          toString (subCode.splitOn "\n").length ++ " lines, creating sandbox..."))
      let pre ← createRLMSandboxM env subPrompt
      emit (.nodeOutput childNodeId
        ("[depth " ++ toString childDepth ++ "] Executing code in sandbox..."))
      let r ← executeWithLlmSupport env
        (fun p cid => handlerGo env maxDepth rootCtxId budget childDepth p cid)
        pre rootCtxId childNodeId childDepth subCode
      emit (.nodeOutput childNodeId
        ("[depth " ++ toString childDepth ++ "] Execution complete"))
      pure ("[Code executed]\n" ++
        jsOr (r.finalResult.getD "") (jsOr r.output "No result"))
    else
      leafResolve env currentDepth subPrompt childNodeId

/-! ### The POST route (`src/app/api/rlm/execute/route.ts` lines
15–230) -/

/-- `RLMExecuteRequest`. -/
structure RLMExecuteRequest where
  query : String
  context : String
  contextId : Option String := none
  maxDepth : Option Nat := none

/-- Terminal reporting of one execution result (route lines 188–210):
`if (result.finalResult) { … } else if (result.error) { … } else { … }`,
with JS truthiness on the strings; the success branch appends the
`{query, code, output, result}` tuple through the persistence client,
which may throw. -/
def routeFinish (env : Env) (rootId : Nat) (result : ExecutionResult) : M Unit := do
  if result.finalResult.getD "" ≠ "" then
    emit (.nodeStatus rootId .completed)
    emit (.executionComplete (result.finalResult.getD ""))
    ucAppend env
  else if result.error.getD "" ≠ "" then
    emit (.nodeStatus rootId .error)
    emit (.executionError (result.error.getD ""))
  else
    emit (.nodeStatus rootId .completed)
    emit (.executionComplete (jsOr result.output "Execution completed (no FINAL() called)"))

/-- Body of the SSE stream's `start` callback, inside the outer `try`
(route lines 42–213).  The inner `finally { await sandbox.close() }` is
the Daytona `close`, which only clears the reference and never throws. -/
def routeTryBody (env : Env) (req : RLMExecuteRequest) (rootCtxId : String)
    (maxDepth : Nat) : M Unit := do
  let rootId ← freshId
  emit (.nodeCreated
    { id := rootId, parentId := none, depth := 0, status := .executing,
      code := "", output := "", contextId := rootCtxId, startedAt := 0 })
  emit (.nodeStatus rootId .llmCalling)
  emit (.nodeLlmStart rootId req.query)
  let llmText ← nextGen env none (rootPrompt req.query req.context maxDepth) 8192
  let generatedCode := extractPythonCode llmText
  emit (.nodeLlmEnd rootId generatedCode)
  emit (.nodeStatus rootId .executing)
  let pre ← createRLMSandboxM env req.context
  let result ← executeWithLlmSupport env
    (fun p cid => handlerGo env maxDepth rootCtxId (maxDepth - 1) 0 p cid)
    pre rootCtxId rootId 0 generatedCode
  routeFinish env rootId result

/-- The full stream body: the `try/catch` whose catch emits
`execution:error` with the thrown message (route lines 214–217).
`uc.create` (route lines 24–31) runs before the stream exists and is
modelled by `env.newContextId`; `rootContextId || newContext.id` follows
JS truthiness. -/
def routeBody (env : Env) (req : RLMExecuteRequest) : M Unit :=
  tryCatch
    (routeTryBody env req (jsOr (req.contextId.getD "") env.newContextId)
      (req.maxDepth.getD 1))
    (fun e => emit (.executionError e))

/-- The event stream emitted for one request, from fresh counters. -/
def routeEvents (env : Env) (req : RLMExecuteRequest) : List RLMEvent :=
  (routeBody env req {}).evs

/-! ### Loop theorems: iteration cap, silent success, crash
classification -/

/-- C4: `executeWithLlmSupport` never loops unboundedly — the loop is a
total function of its 100-iteration budget (`while (iteration < 100)`).
For an environment in which every run keeps the pending-delegation cycle
going (the stub re-requests and exits 42 on every iteration), the loop
performs exactly its 100-run budget (`runCtr` grows by the full budget)
and returns the failure result reporting that the maximum number of
iterations was exceeded, for every code body and every resolver. -/
theorem C4_iteration_cap (env : Env)
    (hrun : ∀ i c, env.runRes i c = .ok "" (some 42))
    (handlerFn : String → Nat → M String) (pre ctxId : String)
    (parentId pDepth : Nat) (origCode : String) :
    ∀ fuel, ∀ full code : String, ∀ s : S,
      execLoopGo env handlerFn pre ctxId parentId pDepth origCode fuel full code s =
        ⟨.ok { success := false, output := full, error := some "Max iterations" },
          [], { s with runCtr := s.runCtr + fuel }⟩ := by
  intro fuel
  induction fuel with
  | zero => intro full code s; rfl
  | succ n ih =>
    intro full code s
    have h := hrun s.runCtr (pre ++ code)
    have step :
        execLoopGo env handlerFn pre ctxId parentId pDepth origCode (n + 1) full code s =
          execLoopGo env handlerFn pre ctxId parentId pDepth origCode n (full ++ "") code
            { s with runCtr := s.runCtr + 1 } := by
      conv_lhs => rw [execLoopGo]
      simp only [Bind.bind, M.bind, nextRun, h]
      rfl
    rw [step, ih]
    simp [String.append_empty, Nat.add_assoc, Nat.add_comm 1 n]

/-- An environment whose every run re-requests delegation (no output,
exit 42) and whose other oracles are trivial. -/
def pendEnv : Env :=
  { runRes := fun _ _ => .ok "" (some 42)
    genText := fun _ _ _ _ => .ok ""
    sandboxNew := fun _ => .ok ()
    appendRes := .ok ()
    newContextId := "ctx" }

/-- Witness for `C4_iteration_cap`: the rigged always-pending program
terminates after exactly 100 iterations with the max-iterations error. -/
theorem C4_iteration_cap_witness :
    execLoopGo pendEnv (fun _ _ => pure "") "" "ctx" 0 0 "body" 100 "" "body" {} =
      ⟨.ok { success := false, output := "", error := some "Max iterations" },
        [], { ({} : S) with runCtr := ({} : S).runCtr + 100 }⟩ :=
  C4_iteration_cap pendEnv (fun _ _ => rfl) (fun _ _ => pure "") "" "ctx" 0 0 "body"
    100 "" "body" {}

/-- C3: a run that exits cleanly (exit status 0) with no FINAL marker and
no pending-call marker in its output makes the loop return success: the
final result is the accumulated trimmed output, or the fixed placeholder
`"Done"` when that trimmed output is empty, and the result carries no
error. -/
theorem C3_silent_success (env : Env) (handlerFn : String → Nat → M String)
    (pre ctxId : String) (parentId pDepth : Nat) (origCode : String)
    (fuel : Nat) (full code : String) (s : S) (out : String)
    (hrun : env.runRes s.runCtr (pre ++ code) = .ok out (some 0))
    (hf : extractFinal out = none) (hb : extractBatch out = none)
    (hs1 : extractSingle out = none) :
    execLoopGo env handlerFn pre ctxId parentId pDepth origCode (fuel + 1) full code s =
      ⟨.ok { success := true, output := full ++ out,
             finalResult := some (jsOr (jsTrim (full ++ out)) "Done") },
        (if jsTrim (stripMarkersD out) != "" && !containsSub "__LLM_".data out.data
         then [.nodeOutput parentId (jsTrim (stripMarkersD out))] else []),
        { s with runCtr := s.runCtr + 1 }⟩ := by
  conv_lhs => rw [execLoopGo]
  simp only [Bind.bind, M.bind, nextRun, hrun]
  simp only [hf, hb, hs1]
  by_cases hcond :
      (jsTrim (stripMarkersD out) != "" && !containsSub "__LLM_".data out.data) = true
  · simp only [hcond, if_true]
    rfl
  · have hcond2 :
        (jsTrim (stripMarkersD out) != "" && !containsSub "__LLM_".data out.data) = false := by
      revert hcond
      cases jsTrim (stripMarkersD out) != "" && !containsSub "__LLM_".data out.data <;> simp
    simp only [hcond2, Bool.false_eq_true, if_false]
    rfl

/-- A clean-exit environment: first run prints plain output and exits 0. -/
def cleanEnv : Env :=
  { runRes := fun _ _ => .ok "hello\n" (some 0)
    genText := fun _ _ _ _ => .ok ""
    sandboxNew := fun _ => .ok ()
    appendRes := .ok ()
    newContextId := "ctx" }

/-- Witness for `C3_silent_success`. -/
theorem C3_silent_success_witness :
    execLoopGo cleanEnv (fun _ _ => pure "") "" "ctx" 7 0 "body" 100 "" "body" {} =
      ⟨.ok { success := true, output := "" ++ "hello\n",
             finalResult := some (jsOr (jsTrim ("" ++ "hello\n")) "Done") },
        (if jsTrim (stripMarkersD "hello\n") != "" &&
            !containsSub "__LLM_".data "hello\n".data
         then [.nodeOutput 7 (jsTrim (stripMarkersD "hello\n"))] else []),
        { ({} : S) with runCtr := ({} : S).runCtr + 1 }⟩ :=
  C3_silent_success cleanEnv (fun _ _ => pure "") "" "ctx" 7 0 "body" 99 "" "body" {}
    "hello\n" rfl rfl rfl rfl

theorem isPre_refl : ∀ l : List Char, isPre l l = true := by
  intro l
  induction l with
  | nil => rfl
  | cons c cs ih => simp [isPre, ih]

theorem containsSub_cons_of_tail (p : List Char) (c : Char) (l : List Char)
    (h : containsSub p l = true) : containsSub p (c :: l) = true := by
  unfold containsSub splitFirst
  by_cases hp : isPre p (c :: l) = true
  · simp [hp]
  · simp only [hp, Bool.false_eq_true, if_false]
    unfold containsSub at h
    cases hsp : splitFirst p l with
    | none => rw [hsp] at h; simp at h
    | some ab => simp

/-- A pattern occurs in any list that ends with it. -/
theorem containsSub_append_self (a p : List Char) :
    containsSub p (a ++ p) = true := by
  induction a with
  | nil =>
    simp only [List.nil_append]
    unfold containsSub splitFirst
    cases p with
    | nil => rfl
    | cons c cs => simp [isPre_refl]
  | cons c a ih => exact containsSub_cons_of_tail p c (a ++ p) ih

/-- C6: a run whose reported exit status is `undefined`/missing is
classified as a sandbox-crash failure — a failure class distinct from the
non-zero-exit `"Exit code N: ..."` classification — and its error detail
includes the partial output captured before the crash (truncated to 500
characters), or says that no output was captured. -/
theorem C6_crash_classification (env : Env) (handlerFn : String → Nat → M String)
    (pre ctxId : String) (parentId pDepth : Nat) (origCode : String)
    (fuel : Nat) (full code : String) (s : S) (out : String)
    (hrun : env.runRes s.runCtr (pre ++ code) = .ok out none) :
    execLoopGo env handlerFn pre ctxId parentId pDepth origCode (fuel + 1) full code s =
      ⟨.ok { success := false, output := full ++ out,
             error := some ("Sandbox crashed (no exit code). " ++
               (if out ≠ "" then
                  "Output before crash: " ++ String.mk (out.data.take 500)
                else "No output captured")) },
        [], { s with runCtr := s.runCtr + 1 }⟩ ∧
      isPre "Sandbox crashed".data
        ("Sandbox crashed (no exit code). " ++
          (if out ≠ "" then "Output before crash: " ++ String.mk (out.data.take 500)
           else "No output captured")).data = true ∧
      isPre "Exit code".data
        ("Sandbox crashed (no exit code). " ++
          (if out ≠ "" then "Output before crash: " ++ String.mk (out.data.take 500)
           else "No output captured")).data = false ∧
      (out ≠ "" →
        containsSub (out.data.take 500)
          ("Sandbox crashed (no exit code). Output before crash: " ++
            String.mk (out.data.take 500)).data = true) := by
  refine ⟨?_, ?_, ?_, ?_⟩
  · conv_lhs => rw [execLoopGo]
    simp only [Bind.bind, M.bind, nextRun, hrun]
    rfl
  · cases hcv : decide (out = "") with
    | true =>
      have hq : out = "" := of_decide_eq_true hcv
      subst hq
      rfl
    | false =>
      have hne : out ≠ "" := of_decide_eq_false hcv
      rw [if_pos hne]
      rfl
  · cases hcv : decide (out = "") with
    | true =>
      have hq : out = "" := of_decide_eq_true hcv
      subst hq
      rfl
    | false =>
      have hne : out ≠ "" := of_decide_eq_false hcv
      rw [if_pos hne]
      rfl
  · intro _
    exact containsSub_append_self _ _

/-- A crashing environment: the run reports no exit status at all. -/
def crashEnv : Env :=
  { runRes := fun _ _ => .ok "partial output" none
    genText := fun _ _ _ _ => .ok ""
    sandboxNew := fun _ => .ok ()
    appendRes := .ok ()
    newContextId := "ctx" }

/-- Witness for `C6_crash_classification`. -/
theorem C6_crash_classification_witness :
    execLoopGo crashEnv (fun _ _ => pure "") "" "ctx" 3 0 "body" 100 "" "body" {} =
      ⟨.ok { success := false, output := "" ++ "partial output",
             error := some ("Sandbox crashed (no exit code). " ++
               (if ("partial output" : String) ≠ "" then
                  "Output before crash: " ++
                    String.mk (("partial output" : String).data.take 500)
                else "No output captured")) },
        [], { ({} : S) with runCtr := ({} : S).runCtr + 1 }⟩ ∧
      isPre "Sandbox crashed".data
        ("Sandbox crashed (no exit code). " ++
          (if ("partial output" : String) ≠ "" then
            "Output before crash: " ++
              String.mk (("partial output" : String).data.take 500)
           else "No output captured")).data = true ∧
      isPre "Exit code".data
        ("Sandbox crashed (no exit code). " ++
          (if ("partial output" : String) ≠ "" then
            "Output before crash: " ++
              String.mk (("partial output" : String).data.take 500)
           else "No output captured")).data = false ∧
      (("partial output" : String) ≠ "" →
        containsSub (("partial output" : String).data.take 500)
          ("Sandbox crashed (no exit code). Output before crash: " ++
            String.mk (("partial output" : String).data.take 500)).data = true) :=
  C6_crash_classification crashEnv (fun _ _ => pure "") "" "ctx" 3 0 "body" 99 "" "body"
    {} "partial output" rfl

/-! ### Extraction of the single-pending prompt and cache keying
(claim C10) -/

theorem isPre_append_self : ∀ a t : List Char, isPre a (a ++ t) = true := by
  intro a
  induction a with
  | nil => intro t; rfl
  | cons c cs ih => intro t; simp [isPre, ih]

theorem isPre_exists : ∀ a s : List Char, isPre a s = true → ∃ t, s = a ++ t := by
  intro a
  induction a with
  | nil => intro s _; exact ⟨s, rfl⟩
  | cons p ps ih =>
    intro s h
    cases s with
    | nil => simp [isPre] at h
    | cons c cs =>
      simp only [isPre, Bool.and_eq_true, beq_iff_eq] at h
      obtain ⟨t, ht⟩ := ih cs h.2
      exact ⟨t, by rw [h.1, ht]; rfl⟩

theorem containsSub_of_isPre (pat l : List Char) (hne : pat ≠ [])
    (h : isPre pat l = true) : containsSub pat l = true := by
  cases l with
  | nil =>
    cases pat with
    | nil => exact absurd rfl hne
    | cons p ps => simp [isPre] at h
  | cons c cs =>
    unfold containsSub splitFirst
    simp [h]

theorem containsSub_tail_of_not_cons (pat : List Char) (c : Char) (l : List Char)
    (h : containsSub pat (c :: l) = false) : containsSub pat l = false := by
  cases hl : containsSub pat l with
  | false => rfl
  | true => rw [containsSub_cons_of_tail pat c l hl] at h; exact h.symm ▸ rfl

/-- If the end marker `M` (newline-free, nonempty) does not occur inside
`xs`, then the first occurrence of `'\n' :: M` in `xs ++ '\n' :: M ++
tail` is exactly at the boundary. -/
theorem splitFirst_boundary (mk2 : List Char) (hne : mk2 ≠ [])
    (hnl : ∀ c ∈ mk2, c ≠ '\n') :
    ∀ xs tail : List Char, containsSub mk2 xs = false →
      splitFirst ('\n' :: mk2) (xs ++ '\n' :: (mk2 ++ tail)) = some (xs, tail) := by
  intro xs
  induction xs with
  | nil =>
    intro tail _
    have hp : isPre ('\n' :: mk2) ('\n' :: (mk2 ++ tail)) = true := by
      simpa [isPre] using isPre_append_self mk2 tail
    simp only [List.nil_append, splitFirst, hp, if_true]
    rw [show ('\n' :: mk2).length = mk2.length + 1 from List.length_cons '\n' mk2]
    rw [List.drop_succ_cons]
    rw [List.drop_left mk2 tail]
  | cons c xs ih =>
    intro tail hx
    have hxs : containsSub mk2 xs = false := containsSub_tail_of_not_cons mk2 c xs hx
    have hp : isPre ('\n' :: mk2) (c :: (xs ++ '\n' :: (mk2 ++ tail))) = false := by
      cases hcase : isPre ('\n' :: mk2) (c :: (xs ++ '\n' :: (mk2 ++ tail))) with
      | false => rfl
      | true =>
        exfalso
        simp only [isPre, Bool.and_eq_true, beq_iff_eq] at hcase
        obtain ⟨t, ht⟩ := isPre_exists mk2 _ hcase.2
        by_cases hlen : xs.length < mk2.length
        · have htake := congrArg (List.take (xs.length + 1)) ht
          rw [List.take_append_eq_append_take,
            List.take_of_length_le (by omega : xs.length ≤ xs.length + 1),
            show xs.length + 1 - xs.length = 1 from by omega] at htake
          rw [List.take_append_eq_append_take,
            show xs.length + 1 - mk2.length = 0 from by omega] at htake
          simp only [List.take_zero, List.append_nil] at htake
          have h1 : List.take 1 ('\n' :: (mk2 ++ tail)) = ['\n'] := rfl
          rw [h1] at htake
          have hmem : '\n' ∈ List.take (xs.length + 1) mk2 := by
            rw [← htake]
            simp
          exact hnl '\n' (List.take_subset _ _ hmem) rfl
        · push_neg at hlen
          have htake := congrArg (List.take mk2.length) ht
          rw [List.take_append_eq_append_take,
            show mk2.length - xs.length = 0 from by omega] at htake
          simp only [List.take_zero, List.append_nil] at htake
          rw [List.take_left] at htake
          have hxeq : xs = mk2 ++ xs.drop mk2.length := by
            conv_lhs => rw [← List.take_append_drop mk2.length xs]
            rw [htake]
          have hcs : containsSub mk2 xs = true := by
            rw [hxeq]
            exact containsSub_of_isPre _ _ hne (isPre_append_self _ _)
          rw [hcs] at hxs
          exact absurd hxs (by simp)
    have hp2 : isPre ('\n' :: mk2) (c :: List.append xs ('\n' :: (mk2 ++ tail))) = false := hp
    have hih : splitFirst ('\n' :: mk2) (List.append xs ('\n' :: (mk2 ++ tail))) =
        some (xs, tail) := ih tail hxs
    simp only [List.cons_append, splitFirst]
    rw [hp2]
    simp only [Bool.false_eq_true, if_false]
    rw [hih]

/-- Leftmost-match lemma: when the whole output starts with the opening
marker `a` and `b` first occurs as given, the lazy regex capture is the
text in between. -/
theorem matchBetween_of_head (a b rest payload tail : List Char) (ha : a ≠ [])
    (hsp : splitFirst b rest = some (payload, tail)) :
    matchBetween a b (a ++ rest) = some payload := by
  cases a with
  | nil => exact absurd rfl ha
  | cons c cs =>
    have hp : isPre (c :: cs) (c :: List.append cs rest) = true :=
      isPre_append_self (c :: cs) rest
    have hdrop : List.drop (c :: cs).length (c :: List.append cs rest) = rest :=
      List.drop_left (c :: cs) rest
    simp only [List.cons_append, matchBetween]
    rw [hp]
    simp only [if_true]
    rw [hdrop, hsp]

/-- The capture of the single-call marker block printed by the stub: for
a prompt that does not itself contain the end-marker line, the extracted
text is exactly the prompt. -/
theorem extractSingle_print (p : String)
    (h : containsSub "__LLM_QUERY_END__".data p.data = false) :
    extractSingle ("__LLM_QUERY_START__\n" ++ p ++ "\n__LLM_QUERY_END__\n") = some p := by
  unfold extractSingle extractBetween
  have hdata : ("__LLM_QUERY_START__\n" ++ p ++ "\n__LLM_QUERY_END__\n").data =
      "__LLM_QUERY_START__\n".data ++
        (p.data ++ '\n' :: ("__LLM_QUERY_END__".data ++ ['\n'])) := by
    show ("__LLM_QUERY_START__\n".data ++ p.data) ++
        ('\n' :: ("__LLM_QUERY_END__".data ++ ['\n'])) = _
    rw [List.append_assoc]
  rw [hdata]
  have hb : "\n__LLM_QUERY_END__".data = '\n' :: "__LLM_QUERY_END__".data := rfl
  rw [hb]
  have hsp : splitFirst ('\n' :: "__LLM_QUERY_END__".data)
      (p.data ++ '\n' :: ("__LLM_QUERY_END__".data ++ ['\n'])) =
      some (p.data, ['\n']) :=
    splitFirst_boundary "__LLM_QUERY_END__".data (by decide) (by decide) p.data ['\n'] h
  rw [matchBetween_of_head "__LLM_QUERY_START__\n".data
    ('\n' :: "__LLM_QUERY_END__".data)
    (p.data ++ '\n' :: ("__LLM_QUERY_END__".data ++ ['\n'])) p.data ['\n']
    (by decide) hsp]
  rfl

/-- C10: when a run's output decodes as a single pending call, the text
captured between the start and end marker lines is used trimmed: the
child node's `llmPrompt`, the argument passed to the resolver, and the
key of the cache entry injected into the next iteration's code are all
`jsTrim payload` — the trimmed capture — rather than the exact string the
program passed to the stub; and for a program-passed prompt `p2` that
does not itself contain the end-marker text, the capture is exactly `p2`
(so the cache key is `jsTrim p2`). -/
theorem C10_trimmed_prompt (env : Env) (handlerFn : String → Nat → M String)
    (pre ctxId : String) (parentId pDepth : Nat) (origCode : String)
    (fuel : Nat) (full code : String) (s : S) (out payload : String) (ec : Int)
    (hrun : env.runRes s.runCtr (pre ++ code) = .ok out (some ec))
    (hf : extractFinal out = none) (hb : extractBatch out = none)
    (hs1 : extractSingle out = some payload)
    (p2 : String) (hp2 : containsSub "__LLM_QUERY_END__".data p2.data = false) :
    execLoopGo env handlerFn pre ctxId parentId pDepth origCode (fuel + 1) full code s =
      M.bind
        (if jsTrim (stripMarkersD out) != "" && !containsSub "__LLM_".data out.data then
          emit (.nodeOutput parentId (jsTrim (stripMarkersD out)))
        else pure ())
        (fun _ => M.bind freshId fun cid =>
          M.bind
            (emit (.nodeCreated
              (mkChildNode cid parentId (pDepth + 1) (jsTrim payload) ctxId)))
            fun _ => M.bind (handlerFn (jsTrim payload) cid) fun resp =>
              M.bind (emit (.nodeStatus cid .completed)) fun _ =>
                execLoopGo env handlerFn pre ctxId parentId pDepth origCode fuel
                  (full ++ out)
                  ("_llm_cache = \x7b" ++ jsonQuote (jsTrim payload) ++ ": " ++
                    jsonQuote resp ++ "\x7d\n" ++ origCode))
        { s with runCtr := s.runCtr + 1 } ∧
      extractSingle ("__LLM_QUERY_START__\n" ++ p2 ++ "\n__LLM_QUERY_END__\n") =
        some p2 := by
  constructor
  · conv_lhs => rw [execLoopGo]
    simp only [Bind.bind, M.bind, nextRun, hrun]
    simp only [hf, hb, hs1]
    by_cases hcond :
        (jsTrim (stripMarkersD out) != "" && !containsSub "__LLM_".data out.data) = true
    · simp only [hcond, if_true]
      rfl
    · have hcond2 :
          (jsTrim (stripMarkersD out) != "" &&
            !containsSub "__LLM_".data out.data) = false := by
        revert hcond
        cases jsTrim (stripMarkersD out) != "" && !containsSub "__LLM_".data out.data <;>
          simp
      simp only [hcond2, Bool.false_eq_true, if_false]
      rfl
  · exact extractSingle_print p2 hp2

/-- An environment whose run emits a single pending-call marker block
with untrimmed payload `"  q1 "`. -/
def singleEnv : Env :=
  { runRes := fun _ _ => .ok "__LLM_QUERY_START__\n  q1 \n__LLM_QUERY_END__\n" (some 42)
    genText := fun _ _ _ _ => .ok ""
    sandboxNew := fun _ => .ok ()
    appendRes := .ok ()
    newContextId := "ctx" }

/-- Witness for `C10_trimmed_prompt` at the untrimmed prompt `"  q1 "`:
the captured payload is the untrimmed text and every downstream use is
its trim `"q1"`. -/
theorem C10_trimmed_prompt_witness :
    execLoopGo singleEnv (fun _ _ => pure "resp") "" "ctx" 5 0 "body" (99 + 1) "" "body"
        {} =
      M.bind
        (if jsTrim (stripMarkersD "__LLM_QUERY_START__\n  q1 \n__LLM_QUERY_END__\n") != ""
            && !containsSub "__LLM_".data
                "__LLM_QUERY_START__\n  q1 \n__LLM_QUERY_END__\n".data then
          emit (.nodeOutput 5
            (jsTrim (stripMarkersD "__LLM_QUERY_START__\n  q1 \n__LLM_QUERY_END__\n")))
        else pure ())
        (fun _ => M.bind freshId fun cid =>
          M.bind
            (emit (.nodeCreated (mkChildNode cid 5 (0 + 1) (jsTrim "  q1 ") "ctx")))
            fun _ => M.bind ((fun _ _ => pure "resp" : String → Nat → M String)
                (jsTrim "  q1 ") cid) fun resp =>
              M.bind (emit (.nodeStatus cid .completed)) fun _ =>
                execLoopGo singleEnv (fun _ _ => pure "resp") "" "ctx" 5 0 "body" 99
                  ("" ++ "__LLM_QUERY_START__\n  q1 \n__LLM_QUERY_END__\n")
                  ("_llm_cache = \x7b" ++ jsonQuote (jsTrim "  q1 ") ++ ": " ++
                    jsonQuote resp ++ "\x7d\n" ++ "body"))
        { ({} : S) with runCtr := ({} : S).runCtr + 1 } ∧
      extractSingle ("__LLM_QUERY_START__\n" ++ "q-p" ++ "\n__LLM_QUERY_END__\n") =
        some "q-p" :=
  C10_trimmed_prompt singleEnv (fun _ _ => pure "resp") "" "ctx" 5 0 "body" 99 "" "body"
    {} "__LLM_QUERY_START__\n  q1 \n__LLM_QUERY_END__\n" "  q1 " 42 rfl (by decide)
    (by decide) (by decide) "q-p" (by decide)

/-! ### The depth cap (claim C5) -/

/-- C5: with `maxDepth = 1`, a delegation requested from depth 0 (the
child is at depth 1, and the route instantiates the handler with budget
`maxDepth - 1`) is resolved as a leaf call: the result is exactly one
direct model-completion call with the fixed system instruction
`RLM_SUB_PROMPT`, whose text is returned verbatim for every oracle —
including responses that contain pending-call markers, which are never
re-parsed — and no new sandbox session is created and no sandbox run is
performed (`sbCtr` and `runCtr` are unchanged). -/
theorem C5_leaf_at_depth_cap (env : Env) (rootCtxId : String) (p : String)
    (cid : Nat) (s : S) :
    handlerGo env 1 rootCtxId (1 - 1) 0 p cid s =
      ⟨env.genText s.llmCtr (some RLM_SUB_PROMPT) p 4096,
        [.nodeOutput cid "[depth 1] Max depth reached, answering directly..."],
        { s with llmCtr := s.llmCtr + 1 }⟩ ∧
      (handlerGo env 1 rootCtxId (1 - 1) 0 p cid s).st.sbCtr = s.sbCtr ∧
      (handlerGo env 1 rootCtxId (1 - 1) 0 p cid s).st.runCtr = s.runCtr := by
  refine ⟨?_, ?_, ?_⟩ <;> rfl

/-! ### Terminal events of the stream (claim C2) -/

/-- No terminal event occurs in the list. -/
def noTerminal (evs : List RLMEvent) : Prop :=
  ∀ e ∈ evs, isTerminalEvent e = false

theorem noTerminal_nil : noTerminal [] := by
  intro e he
  simp at he

theorem noTerminal_append {a b : List RLMEvent} (ha : noTerminal a)
    (hb : noTerminal b) : noTerminal (a ++ b) := by
  intro e he
  rcases List.mem_append.mp he with h | h
  · exact ha e h
  · exact hb e h

theorem noTerminal_bind {α β : Type} (m : M α) (k : α → M β) (s : S)
    (h1 : noTerminal (m s).evs) (h2 : ∀ a s2, noTerminal ((k a) s2).evs) :
    noTerminal ((m >>= k) s).evs := by
  show noTerminal ((M.bind m k) s).evs
  unfold M.bind
  cases hm : m s with
  | mk r tr s1 =>
    rw [hm] at h1
    cases r with
    | error e => exact h1
    | ok a => exact noTerminal_append h1 (h2 a s1)

theorem noTerminal_emit (ev : RLMEvent) (h : isTerminalEvent ev = false) (s : S) :
    noTerminal ((emit ev) s).evs := by
  intro e he
  simp only [emit, List.mem_singleton] at he
  rw [he]
  exact h

theorem noTerminal_pure {α : Type} (a : α) (s : S) :
    noTerminal ((pure (f := M) a) s).evs :=
  noTerminal_nil

theorem noTerminal_ite {α : Type} {c : Prop} [Decidable c] (m1 m2 : M α) (s : S)
    (h1 : noTerminal (m1 s).evs) (h2 : noTerminal (m2 s).evs) :
    noTerminal ((if c then m1 else m2) s).evs := by
  by_cases hc : c
  · rw [if_pos hc]; exact h1
  · rw [if_neg hc]; exact h2

theorem noTerminal_createChunkNodes (pid d : Nat) (ctx : String) :
    ∀ l : List String, ∀ s, noTerminal ((createChunkNodes pid d ctx l) s).evs := by
  intro l
  induction l with
  | nil => intro s; exact noTerminal_pure [] s
  | cons p ps ih =>
    intro s
    simp only [createChunkNodes]
    refine noTerminal_bind _ _ _ noTerminal_nil fun cid s2 => ?_
    refine noTerminal_bind _ _ _ (noTerminal_emit _ (by rfl) s2) fun _ s3 => ?_
    refine noTerminal_bind _ _ _ (ih s3) fun rest s4 => ?_
    exact noTerminal_pure _ s4

theorem noTerminal_resolveChunk (handlerFn : String → Nat → M String)
    (hh : ∀ p cid s, noTerminal ((handlerFn p cid) s).evs) :
    ∀ l : List (Nat × String), ∀ s, noTerminal ((resolveChunk handlerFn l) s).evs := by
  intro l
  induction l with
  | nil => intro s; exact noTerminal_pure [] s
  | cons pc rest ih =>
    intro s
    obtain ⟨cid, p⟩ := pc
    simp only [resolveChunk]
    refine noTerminal_bind _ _ _ (hh p cid s) fun resp s2 => ?_
    refine noTerminal_bind _ _ _ (noTerminal_emit _ (by rfl) s2) fun _ s3 => ?_
    refine noTerminal_bind _ _ _ (ih s3) fun more s4 => ?_
    exact noTerminal_pure _ s4

theorem noTerminal_runBatchChunks (handlerFn : String → Nat → M String)
    (hh : ∀ p cid s, noTerminal ((handlerFn p cid) s).evs)
    (pid d : Nat) (ctx : String) (total : Nat) :
    ∀ chunks : List (List String), ∀ i s,
      noTerminal ((runBatchChunks handlerFn pid d ctx total chunks i) s).evs := by
  intro chunks
  induction chunks with
  | nil => intro i s; exact noTerminal_pure [] s
  | cons chunk rest ih =>
    intro i s
    simp only [runBatchChunks]
    refine noTerminal_bind _ _ _ (noTerminal_createChunkNodes pid d ctx chunk s)
      fun pairs s2 => ?_
    refine noTerminal_bind _ _ _ (noTerminal_resolveChunk handlerFn hh pairs s2)
      fun resps s3 => ?_
    refine noTerminal_bind _ _ _ (noTerminal_emit _ (by rfl) s3) fun _ s4 => ?_
    refine noTerminal_bind _ _ _ (ih (i + 10) s4) fun more s5 => ?_
    exact noTerminal_pure _ s5

/-- The execution loop emits only node-level events, never a terminal
`execution:complete`/`execution:error`. -/
theorem noTerminal_execLoopGo (env : Env) (handlerFn : String → Nat → M String)
    (hh : ∀ p cid s, noTerminal ((handlerFn p cid) s).evs)
    (pre ctxId : String) (parentId pDepth : Nat) (origCode : String) :
    ∀ fuel, ∀ full code : String, ∀ s,
      noTerminal
        ((execLoopGo env handlerFn pre ctxId parentId pDepth origCode fuel full code) s).evs := by
  intro fuel
  induction fuel with
  | zero => intro full code s; exact noTerminal_pure _ s
  | succ n ih =>
    intro full code s
    simp only [execLoopGo]
    refine noTerminal_bind _ _ _ noTerminal_nil fun res s2 => ?_
    cases res with
    | threw msg => exact noTerminal_pure _ s2
    | invalidRes => exact noTerminal_pure _ s2
    | ok output exitCode =>
      cases exitCode with
      | none => exact noTerminal_pure _ s2
      | some ec =>
        dsimp only
        refine @noTerminal_ite _
            ((jsTrim (stripMarkersD output) != "" &&
              !containsSub ['_', '_', 'L', 'L', 'M', '_'] output.data) = true) _ _ _
            s2 ?_ ?_ <;>
          [refine noTerminal_bind _ _ _ (noTerminal_emit _ (by rfl) s2) fun _ s3 => ?_;
           refine noTerminal_bind _ _ _ (noTerminal_pure _ s2) fun _ s3 => ?_] <;>
          cases extractFinal output with
          | some payload => exact noTerminal_pure _ s3
          | none =>
            dsimp only
            cases extractBatch output with
            | some payload =>
              dsimp only
              cases parseJsonArray (jsTrim payload) with
              | none => exact noTerminal_nil
              | some prompts =>
                dsimp only
                refine noTerminal_bind _ _ _ (noTerminal_emit _ (by rfl) s3) fun _ s4 => ?_
                refine noTerminal_bind _ _ _
                  (noTerminal_runBatchChunks handlerFn hh parentId (pDepth + 1) ctxId
                    prompts.length (chunksOf10 prompts) 0 s4) fun responses s5 => ?_
                exact ih _ _ s5
            | none =>
              dsimp only
              cases extractSingle output with
              | some payload =>
                dsimp only
                refine noTerminal_bind _ _ _ noTerminal_nil fun cid s4 => ?_
                refine noTerminal_bind _ _ _ (noTerminal_emit _ (by rfl) s4) fun _ s5 => ?_
                refine noTerminal_bind _ _ _ (hh _ cid s5) fun resp s6 => ?_
                refine noTerminal_bind _ _ _ (noTerminal_emit _ (by rfl) s6) fun _ s7 => ?_
                exact ih _ _ s7
              | none =>
                dsimp only
                by_cases h42 : ec = 42 ∨ ec = 43
                · rw [if_pos h42]; exact ih _ _ s3
                · rw [if_neg h42]
                  by_cases h0 : ec ≠ 0
                  · rw [if_pos h0]
                    refine noTerminal_bind _ _ _ (noTerminal_emit _ (by rfl) s3)
                      fun _ s4 => ?_
                    exact noTerminal_pure _ s4
                  · rw [if_neg h0]; exact noTerminal_pure _ s3

theorem noTerminal_createRLMSandboxM (env : Env) (context : String) (s : S) :
    noTerminal ((createRLMSandboxM env context) s).evs := by
  intro e he
  unfold createRLMSandboxM at he
  rcases hsb : env.sandboxNew s.sbCtr with er | u <;> rw [hsb] at he <;> simp at he

theorem noTerminal_leafResolve (env : Env) (d : Nat) (p : String) (cid : Nat)
    (s : S) : noTerminal ((leafResolve env d p cid) s).evs := by
  simp only [leafResolve]
  refine noTerminal_bind _ _ _ (noTerminal_emit _ (by rfl) s) fun _ s2 => ?_
  exact noTerminal_nil

/-- The delegation resolver emits only node-level events. -/
theorem noTerminal_handlerGo (env : Env) (maxDepth : Nat) (rootCtxId : String) :
    ∀ budget d : Nat, ∀ p : String, ∀ cid : Nat, ∀ s,
      noTerminal ((handlerGo env maxDepth rootCtxId budget d p cid) s).evs := by
  intro budget
  induction budget with
  | zero => intro d p cid s; exact noTerminal_leafResolve env d p cid s
  | succ b ih =>
    intro d p cid s
    simp only [handlerGo]
    by_cases hd : d + 1 < maxDepth
    · rw [if_pos hd]
      refine noTerminal_bind _ _ _ (noTerminal_emit _ (by rfl) s) fun _ s2 => ?_
      refine noTerminal_bind _ _ _ noTerminal_nil fun subText s3 => ?_
      refine noTerminal_bind _ _ _ (noTerminal_emit _ (by rfl) s3) fun _ s4 => ?_
      refine noTerminal_bind _ _ _ ?_ fun pre s5 => ?_
      · exact noTerminal_createRLMSandboxM env _ _
      · refine noTerminal_bind _ _ _ (noTerminal_emit _ (by rfl) s5) fun _ s6 => ?_
        refine noTerminal_bind _ _ _
          (noTerminal_execLoopGo env _ (fun p2 cid2 s7 => ih (d + 1) p2 cid2 s7)
            pre rootCtxId cid (d + 1) _ 100 "" _ s6) fun r s8 => ?_
        refine noTerminal_bind _ _ _ (noTerminal_emit _ (by rfl) s8) fun _ s9 => ?_
        exact noTerminal_pure _ s9
    · rw [if_neg hd]
      exact noTerminal_leafResolve env d p cid s

/-- Number of terminal events in a stream. -/
def terminalCount (evs : List RLMEvent) : Nat :=
  (evs.filter fun e => isTerminalEvent e).length

theorem terminalCount_append (a b : List RLMEvent) :
    terminalCount (a ++ b) = terminalCount a + terminalCount b := by
  simp [terminalCount, List.filter_append]

theorem terminalCount_zero_of_noTerminal {l : List RLMEvent} (h : noTerminal l) :
    terminalCount l = 0 := by
  unfold terminalCount
  rw [List.filter_eq_nil_iff.mpr fun e he => by simp [h e he]]
  rfl

/-- Terminal-event specification of a unit computation's outcome, with
`P er` the condition tied to an error `er`: success emits exactly one
terminal event; failure emits none (the error propagates) or exactly one
with `P` holding of the thrown message. -/
def TSpec (P : String → Prop) (o : Out Unit) : Prop :=
  (∀ a : Unit, o.res = .ok a → terminalCount o.evs = 1) ∧
  (∀ er, o.res = .error er →
    terminalCount o.evs = 0 ∨ (terminalCount o.evs = 1 ∧ P er))

/-- `TSpec` is preserved by prefixing any step that emits no terminal
events. -/
theorem TSpec_bind {α : Type} (P : String → Prop) (m : M α) (k : α → M Unit)
    (s : S) (hm : ∀ s2, noTerminal (m s2).evs)
    (hk : ∀ a s2, TSpec P ((k a) s2)) : TSpec P ((m >>= k) s) := by
  show TSpec P ((M.bind m k) s)
  unfold M.bind
  cases hms : m s with
  | mk r tr s1 =>
    have htr : noTerminal tr := by
      have h2 := hm s
      rw [hms] at h2
      exact h2
    cases r with
    | error e =>
      constructor
      · intro a h
        simp at h
      · intro er h
        exact Or.inl (terminalCount_zero_of_noTerminal htr)
    | ok a =>
      have hk2 := hk a s1
      constructor
      · intro u h
        rw [terminalCount_append, terminalCount_zero_of_noTerminal htr, Nat.zero_add]
        exact hk2.1 u h
      · intro er h
        rw [terminalCount_append, terminalCount_zero_of_noTerminal htr, Nat.zero_add]
        exact hk2.2 er h

/-- The terminal-reporting tail emits exactly one terminal event, and its
only failure mode is the persistence append after `execution:complete`. -/
theorem routeFinish_TSpec (env : Env) (rootId : Nat) (result : ExecutionResult)
    (s : S) :
    TSpec (fun er => env.appendRes = .error er) ((routeFinish env rootId result) s) := by
  unfold routeFinish
  by_cases h1 : result.finalResult.getD "" ≠ ""
  · rw [if_pos h1]
    simp only [Bind.bind, M.bind, emit, ucAppend]
    cases happ : env.appendRes with
    | error e =>
      refine ⟨fun a h => ?_, fun er h => ?_⟩
      · simp at h
      · refine Or.inr ⟨rfl, ?_⟩
        injection h with h2
        exact congrArg Except.error h2
    | ok u =>
      exact ⟨fun a h => rfl, fun er h => by simp at h⟩
  · rw [if_neg h1]
    by_cases h2 : result.error.getD "" ≠ ""
    · rw [if_pos h2]
      simp only [Bind.bind, M.bind, emit]
      exact ⟨fun a h => rfl, fun er h => by simp at h⟩
    · rw [if_neg h2]
      simp only [Bind.bind, M.bind, emit]
      exact ⟨fun a h => rfl, fun er h => by simp at h⟩

/-- The whole try-body satisfies `TSpec`: its prefix (root events, code
generation, sandbox creation, the execution loop) emits no terminal
events, and the tail emits exactly one. -/
theorem routeTryBody_TSpec (env : Env) (req : RLMExecuteRequest) (ctx : String)
    (d : Nat) (s : S) :
    TSpec (fun er => env.appendRes = .error er) ((routeTryBody env req ctx d) s) := by
  simp only [routeTryBody]
  refine TSpec_bind _ _ _ _ (fun s2 => noTerminal_nil) fun rootId s2 => ?_
  refine TSpec_bind _ _ _ _ (fun s3 => noTerminal_emit _ (by rfl) s3) fun _ s3 => ?_
  refine TSpec_bind _ _ _ _ (fun s4 => noTerminal_emit _ (by rfl) s4) fun _ s4 => ?_
  refine TSpec_bind _ _ _ _ (fun s5 => noTerminal_emit _ (by rfl) s5) fun _ s5 => ?_
  refine TSpec_bind _ _ _ _ (fun s6 => noTerminal_nil) fun llmText s6 => ?_
  refine TSpec_bind _ _ _ _ (fun s7 => noTerminal_emit _ (by rfl) s7) fun _ s7 => ?_
  refine TSpec_bind _ _ _ _ (fun s8 => noTerminal_emit _ (by rfl) s8) fun _ s8 => ?_
  refine TSpec_bind _ _ _ _ (fun s9 => noTerminal_createRLMSandboxM env _ s9)
    fun pre s9 => ?_
  refine TSpec_bind _ _ _ _
    (fun s10 => noTerminal_execLoopGo env _
      (fun p cid s11 => noTerminal_handlerGo env d ctx (d - 1) 0 p cid s11)
      pre ctx rootId 0 _ 100 "" _ s10)
    fun result s10 => ?_
  exact routeFinish_TSpec env rootId result s10

/-- C2 amended: the emitted stream always contains at least one and at
most two terminal events; whenever the post-completion persistence append
succeeds it contains exactly one, and the only way to reach two is the
path where `execution:complete` was already emitted and the persistence
append then threw, in which case an `execution:error` follows it. -/
theorem C2_terminal_events (env : Env) (req : RLMExecuteRequest) :
    1 ≤ terminalCount (routeEvents env req) ∧
      terminalCount (routeEvents env req) ≤ 2 ∧
      (env.appendRes = .ok () → terminalCount (routeEvents env req) = 1) ∧
      (terminalCount (routeEvents env req) = 2 → ∃ e, env.appendRes = .error e) := by
  have hspec := routeTryBody_TSpec env req
    (jsOr (req.contextId.getD "") env.newContextId) (req.maxDepth.getD 1) {}
  unfold routeEvents routeBody tryCatch
  cases hrb : (routeTryBody env req (jsOr (req.contextId.getD "") env.newContextId)
      (req.maxDepth.getD 1)) {} with
  | mk r tr st =>
    rw [hrb] at hspec
    cases r with
    | ok u =>
      have h1 := hspec.1 u rfl
      dsimp only at h1 ⊢
      rw [h1]
      refine ⟨le_refl 1, by omega, fun _ => rfl, fun h => by omega⟩
    | error er =>
      have h2 := hspec.2 er rfl
      dsimp only at h2 ⊢
      rw [terminalCount_append]
      have hemit : terminalCount ((emit (RLMEvent.executionError er)) st).evs = 1 := rfl
      rw [hemit]
      rcases h2 with h0 | ⟨hone, hp⟩
      · rw [h0]
        refine ⟨by omega, by omega, fun _ => rfl, fun h => by omega⟩
      · rw [hone]
        refine ⟨by omega, by omega, fun hok => ?_, fun _ => ⟨er, hp⟩⟩
        rw [hp] at hok
        simp at hok

/-- An environment whose run reaches FINAL but whose persistence append
throws. -/
def appendFailEnv : Env :=
  { runRes := fun _ _ => .ok "__RLM_FINAL_START__\nx\n__RLM_FINAL_END__\n" (some 0)
    genText := fun _ _ _ _ => .ok "FINAL(answer)"
    sandboxNew := fun _ => .ok ()
    appendRes := .error "append failed"
    newContextId := "ctx" }

/-- The same environment with a succeeding append. -/
def appendOkEnv : Env :=
  { runRes := fun _ _ => .ok "__RLM_FINAL_START__\nx\n__RLM_FINAL_END__\n" (some 0)
    genText := fun _ _ _ _ => .ok "FINAL(answer)"
    sandboxNew := fun _ => .ok ()
    appendRes := .ok ()
    newContextId := "ctx" }

/-- A minimal request. -/
def reqSmall : RLMExecuteRequest := { query := "q", context := "c" }

/-- C2 counterexample: on the success-then-failing-persistence path the
stream contains two terminal events — one `execution:complete` followed
by one `execution:error` — so "exactly one terminal event, never both"
is false as stated. -/
theorem C2_counterexample :
    terminalCount (routeEvents appendFailEnv reqSmall) = 2 ∧
      RLMEvent.executionComplete "x" ∈ routeEvents appendFailEnv reqSmall ∧
      RLMEvent.executionError "append failed" ∈ routeEvents appendFailEnv reqSmall := by
  refine ⟨?_, ?_, ?_⟩ <;> decide

/-- Witness for `C2_terminal_events`: with a succeeding append the stream
has exactly one terminal event. -/
theorem C2_terminal_events_witness :
    terminalCount (routeEvents appendOkEnv reqSmall) = 1 :=
  (C2_terminal_events appendOkEnv reqSmall).2.2.1 rfl

/-! ### Parent/depth anchoring of created nodes (claim C9)

Every `node:created` event of a run carries `parentId` and `depth`; the
creating code always uses `depth = parentDepth + 1` where the parent is
either the root node or a node created earlier in the trace.  We
formalize this as `anchoredNodes`: each node of a list is anchored to a
pair `(id, depth)` drawn from a base set that grows with every created
node. -/

/-- The created nodes of a trace, in order. -/
def createdOf (tr : List RLMEvent) : List RLMNode :=
  tr.filterMap fun e =>
    match e with
    | .nodeCreated n => some n
    | _ => none

/-- Each node's parent pair `(parentId, parentDepth)` is in the growing
base, and its depth is the parent's depth plus one. -/
def anchoredNodes (base : Nat × Nat → Prop) : List RLMNode → Prop
  | [] => True
  | n :: rest =>
    (∃ q, base q ∧ n.parentId = some q.1 ∧ n.depth = q.2 + 1) ∧
      anchoredNodes (fun q => q = (n.id, n.depth) ∨ base q) rest

theorem createdOf_append (a b : List RLMEvent) :
    createdOf (a ++ b) = createdOf a ++ createdOf b := by
  simp [createdOf, List.filterMap_append]

theorem anchored_mono :
    ∀ l : List RLMNode, ∀ b1 b2 : Nat × Nat → Prop, (∀ q, b1 q → b2 q) →
      anchoredNodes b1 l → anchoredNodes b2 l := by
  intro l
  induction l with
  | nil => intro b1 b2 _ _; trivial
  | cons n rest ih =>
    intro b1 b2 hsub h
    obtain ⟨⟨q, hq, hp, hd⟩, hrest⟩ := h
    refine ⟨⟨q, hsub q hq, hp, hd⟩, ?_⟩
    exact ih _ _ (fun q2 hq2 => hq2.elim Or.inl fun h2 => Or.inr (hsub q2 h2)) hrest

theorem anchored_append_of :
    ∀ xs : List RLMNode, ∀ ys : List RLMNode, ∀ base : Nat × Nat → Prop,
      anchoredNodes base xs →
      anchoredNodes (fun q => (∃ m ∈ xs, (m.id, m.depth) = q) ∨ base q) ys →
      anchoredNodes base (xs ++ ys) := by
  intro xs
  induction xs with
  | nil =>
    intro ys base _ hys
    simpa using anchored_mono ys _ base (fun q hq => by simpa using hq) hys
  | cons n xs ih =>
    intro ys base hx hys
    obtain ⟨hn, hxs⟩ := hx
    refine ⟨hn, ?_⟩
    refine ih ys _ hxs (anchored_mono ys _ _ (fun q hq => ?_) hys)
    rcases hq with ⟨m, hm, hmq⟩ | hb
    · rcases List.mem_cons.mp hm with rfl | hmx
      · exact Or.inr (Or.inl hmq.symm)
      · exact Or.inl ⟨m, hmx, hmq⟩
    · exact Or.inr (Or.inr hb)

/-- Composition of anchoring through a bind: the continuation may rely on
everything the first computation created. -/
theorem anchored_bind {α β : Type} (m : M α) (k : α → M β) (s : S)
    (base : Nat × Nat → Prop)
    (h1 : anchoredNodes base (createdOf (m s).evs))
    (h2 : ∀ a, (m s).res = .ok a → anchoredNodes
      (fun q => (∃ n ∈ createdOf (m s).evs, (n.id, n.depth) = q) ∨ base q)
      (createdOf ((k a) (m s).st).evs)) :
    anchoredNodes base (createdOf ((m >>= k) s).evs) := by
  show anchoredNodes base (createdOf ((M.bind m k) s).evs)
  unfold M.bind
  cases hms : m s with
  | mk r tr s1 =>
    rw [hms] at h1 h2
    cases r with
    | error e => exact h1
    | ok a =>
      dsimp only
      rw [createdOf_append]
      exact anchored_append_of _ _ base h1 (h2 a rfl)

/-- Bind with a first step that creates no node. -/
theorem anchored_bind_nocreate {α β : Type} (m : M α) (k : α → M β) (s : S)
    (base : Nat × Nat → Prop)
    (h0 : ∀ s2, createdOf ((m s2).evs) = [])
    (h2 : ∀ a s2, anchoredNodes base (createdOf ((k a) s2).evs)) :
    anchoredNodes base (createdOf ((m >>= k) s).evs) := by
  refine anchored_bind m k s base ?_ fun a _ => ?_
  · rw [h0 s]; trivial
  · exact anchored_mono _ base _ (fun q hq => Or.inr hq) (h2 a (m s).st)

/-- Bind whose first step is the creation of one anchored node. -/
theorem anchored_bind_createEmit {β : Type} (n : RLMNode) (k : Unit → M β) (s : S)
    (base : Nat × Nat → Prop)
    (hn : ∃ q, base q ∧ n.parentId = some q.1 ∧ n.depth = q.2 + 1)
    (h2 : ∀ s2, anchoredNodes (fun q => q = (n.id, n.depth) ∨ base q)
      (createdOf ((k ()) s2).evs)) :
    anchoredNodes base (createdOf ((emit (.nodeCreated n) >>= k) s).evs) := by
  show anchoredNodes base (createdOf ((M.bind (emit (.nodeCreated n)) k) s).evs)
  unfold M.bind emit
  dsimp only
  exact ⟨hn, h2 s⟩

theorem anchored_ite {α : Type} {c : Prop} [Decidable c] (m1 m2 : M α) (s : S)
    (base : Nat × Nat → Prop)
    (h1 : anchoredNodes base (createdOf (m1 s).evs))
    (h2 : anchoredNodes base (createdOf (m2 s).evs)) :
    anchoredNodes base (createdOf ((if c then m1 else m2) s).evs) := by
  by_cases hc : c
  · rw [if_pos hc]; exact h1
  · rw [if_neg hc]; exact h2

theorem anchored_nil (base : Nat × Nat → Prop) : anchoredNodes base [] := trivial

/-- The lazy node-creation pass of one batch group returns the
`(nodeId, prompt)` pairs and emits exactly the corresponding
`node:created` events. -/
theorem createChunkNodes_run (parentId cd : Nat) (ctx : String) :
    ∀ l : List String, ∀ s : S, ∃ pairsv : List (Nat × String), ∃ s2 : S,
      (createChunkNodes parentId cd ctx l) s =
        ⟨.ok pairsv,
          pairsv.map fun pc =>
            RLMEvent.nodeCreated (mkChildNode pc.1 parentId cd pc.2 ctx),
          s2⟩ := by
  intro l
  induction l with
  | nil => intro s; exact ⟨[], s, rfl⟩
  | cons p ps ih =>
    intro s
    obtain ⟨pairsv, s2, hrun⟩ := ih { s with idCtr := s.idCtr + 1 }
    refine ⟨(s.idCtr, p) :: pairsv, s2, ?_⟩
    simp only [createChunkNodes, Bind.bind, M.bind, freshId, emit, Pure.pure, M.pure]
    rw [hrun]
    simp

/-- A list of freshly created children of one parent is anchored whenever
the parent pair is in the base. -/
theorem anchored_childList (parentId pd : Nat) (ctx : String) :
    ∀ pairsv : List (Nat × String), ∀ base : Nat × Nat → Prop,
      base (parentId, pd) →
      anchoredNodes base (createdOf (pairsv.map fun pc =>
        RLMEvent.nodeCreated (mkChildNode pc.1 parentId (pd + 1) pc.2 ctx))) := by
  intro pairsv
  induction pairsv with
  | nil => intro base _; trivial
  | cons pc rest ih =>
    intro base hb
    refine ⟨⟨(parentId, pd), hb, rfl, rfl⟩, ?_⟩
    exact ih _ (Or.inr hb)

/-- A delegation-resolver function anchors all its created nodes to its
child id at the child depth. -/
def HandlerAnchors (d : Nat) (h : String → Nat → M String) : Prop :=
  ∀ p : String, ∀ cid : Nat, ∀ base : Nat × Nat → Prop, base (cid, d + 1) → ∀ s : S,
    anchoredNodes base (createdOf ((h p cid) s).evs)

theorem anchored_resolveChunk (handlerFn : String → Nat → M String) (d : Nat)
    (hh : HandlerAnchors d handlerFn) :
    ∀ pairsv : List (Nat × String), ∀ base : Nat × Nat → Prop,
      (∀ pc ∈ pairsv, base (pc.1, d + 1)) → ∀ s : S,
      anchoredNodes base (createdOf ((resolveChunk handlerFn pairsv) s).evs) := by
  intro pairsv
  induction pairsv with
  | nil => intro base _ s; exact anchored_nil base
  | cons pc rest ih =>
    intro base hb s
    obtain ⟨cid, p⟩ := pc
    simp only [resolveChunk]
    refine anchored_bind _ _ s base (hh p cid base (hb (cid, p) (by simp)) s)
      fun resp _ => ?_
    refine anchored_bind_nocreate _ _ _ _ (fun s3 => rfl) fun _ s3 => ?_
    refine anchored_bind _ _ s3 _
      (ih _ (fun pc2 hpc2 => Or.inr (hb pc2 (by simp [hpc2]))) s3) fun more _ => ?_
    exact anchored_nil _

theorem anchored_runBatchChunks (handlerFn : String → Nat → M String)
    (parentId pd : Nat) (ctx : String) (total : Nat)
    (hh : HandlerAnchors pd handlerFn) :
    ∀ chunks : List (List String), ∀ i : Nat, ∀ base : Nat × Nat → Prop,
      base (parentId, pd) → ∀ s : S,
      anchoredNodes base
        (createdOf ((runBatchChunks handlerFn parentId (pd + 1) ctx total chunks i) s).evs) := by
  intro chunks
  induction chunks with
  | nil => intro i base _ s; exact anchored_nil base
  | cons chunk rest ih =>
    intro i base hb s
    simp only [runBatchChunks]
    obtain ⟨pairsv, s2, hrun⟩ := createChunkNodes_run parentId (pd + 1) ctx chunk s
    refine anchored_bind _ _ s base ?_ ?_
    · rw [hrun]
      exact anchored_childList parentId pd ctx pairsv base hb
    · intro pairs hres
      rw [hrun] at hres
      injection hres with hres2
      subst hres2
      rw [hrun]
      dsimp only
      refine anchored_bind _ _ _ _ ?_ fun resps _ => ?_
      · refine anchored_resolveChunk handlerFn pd hh pairsv _ (fun pc hpc => ?_) _
        refine Or.inl ⟨mkChildNode pc.1 parentId (pd + 1) pc.2 ctx, ?_, rfl⟩
        simp only [createdOf, List.filterMap_map]
        exact List.mem_filterMap.mpr ⟨pc, hpc, rfl⟩
      · refine anchored_bind_nocreate _ _ _ _ (fun s4 => rfl) fun _ s4 => ?_
        refine anchored_bind _ _ s4 _
          (ih (i + 10) _ (Or.inr (Or.inr hb)) s4) fun more _ => ?_
        exact anchored_nil _

theorem createdOf_createRLMSandboxM (env : Env) (c : String) (s : S) :
    createdOf ((createRLMSandboxM env c) s).evs = [] := by
  unfold createRLMSandboxM
  cases env.sandboxNew s.sbCtr <;> rfl

/-- The execution loop anchors every node it creates — directly created
children to `(parentId, pDepth)`, resolver-created descendants through
the resolver's own anchoring. -/
theorem anchored_execLoopGo (env : Env) (handlerFn : String → Nat → M String)
    (pre ctxId : String) (parentId pDepth : Nat) (origCode : String)
    (hh : HandlerAnchors pDepth handlerFn) :
    ∀ fuel, ∀ full code : String, ∀ base : Nat × Nat → Prop,
      base (parentId, pDepth) → ∀ s : S,
      anchoredNodes base
        (createdOf ((execLoopGo env handlerFn pre ctxId parentId pDepth origCode
          fuel full code) s).evs) := by
  intro fuel
  induction fuel with
  | zero => intro full code base _ s; exact anchored_nil base
  | succ n ih =>
    intro full code base hb s
    simp only [execLoopGo]
    refine anchored_bind_nocreate _ _ s base (fun s2 => rfl) fun res s2 => ?_
    cases res with
    | threw msg => exact anchored_nil base
    | invalidRes => exact anchored_nil base
    | ok output exitCode =>
      cases exitCode with
      | none => exact anchored_nil base
      | some ec =>
        dsimp only
        refine @anchored_ite _
            ((jsTrim (stripMarkersD output) != "" &&
              !containsSub ['_', '_', 'L', 'L', 'M', '_'] output.data) = true) _ _ _
            s2 base ?_ ?_ <;>
          [refine anchored_bind_nocreate _ _ s2 base (fun s3 => rfl) fun _ s3 => ?_;
           refine anchored_bind_nocreate _ _ s2 base (fun s3 => rfl) fun _ s3 => ?_] <;>
          cases extractFinal output with
          | some payload => exact anchored_nil base
          | none =>
            dsimp only
            cases extractBatch output with
            | some payload =>
              dsimp only
              cases parseJsonArray (jsTrim payload) with
              | none => exact anchored_nil base
              | some prompts =>
                dsimp only
                refine anchored_bind_nocreate _ _ s3 base (fun s4 => rfl) fun _ s4 => ?_
                refine anchored_bind _ _ s4 base
                  (anchored_runBatchChunks handlerFn parentId pDepth ctxId
                    prompts.length hh (chunksOf10 prompts) 0 base hb s4)
                  fun responses _ => ?_
                exact ih _ _ _ (Or.inr hb) _
            | none =>
              dsimp only
              cases extractSingle output with
              | some payload =>
                dsimp only
                refine anchored_bind_nocreate _ _ s3 base (fun s4 => rfl) fun cid s4 => ?_
                refine anchored_bind_createEmit _ _ s4 base ⟨(parentId, pDepth), hb, rfl, rfl⟩
                  fun s5 => ?_
                refine anchored_bind _ _ s5 _
                  (hh (jsTrim payload) cid _ (Or.inl rfl) s5) fun resp _ => ?_
                refine anchored_bind_nocreate _ _ _ _ (fun s6 => rfl) fun _ s6 => ?_
                exact ih _ _ _ (Or.inr (Or.inr hb)) s6
              | none =>
                dsimp only
                by_cases h42 : ec = 42 ∨ ec = 43
                · rw [if_pos h42]; exact ih _ _ base hb s3
                · rw [if_neg h42]
                  by_cases h0 : ec ≠ 0
                  · rw [if_pos h0]
                    refine anchored_bind_nocreate _ _ s3 base (fun s4 => rfl)
                      fun _ s4 => ?_
                    exact anchored_nil base
                  · rw [if_neg h0]; exact anchored_nil base

/-- The delegation resolver anchors all its created nodes. -/
theorem anchored_handlerGo (env : Env) (maxD : Nat) (ctx : String) :
    ∀ budget d : Nat,
      HandlerAnchors d (fun p cid => handlerGo env maxD ctx budget d p cid) := by
  intro budget
  induction budget with
  | zero =>
    intro d p cid base _ s
    exact anchored_nil base
  | succ b ihb =>
    intro d p cid base hb s
    simp only [handlerGo]
    by_cases hd : d + 1 < maxD
    · rw [if_pos hd]
      refine anchored_bind_nocreate _ _ s base (fun s2 => rfl) fun _ s2 => ?_
      refine anchored_bind_nocreate _ _ s2 base (fun s3 => rfl) fun subText s3 => ?_
      refine anchored_bind_nocreate _ _ s3 base (fun s4 => rfl) fun _ s4 => ?_
      refine anchored_bind_nocreate _ _ s4 base
        (fun s5 => createdOf_createRLMSandboxM env _ s5) fun pre s5 => ?_
      refine anchored_bind_nocreate _ _ s5 base (fun s6 => rfl) fun _ s6 => ?_
      refine anchored_bind _ _ s6 base
        (anchored_execLoopGo env _ pre ctx cid (d + 1) _ (ihb (d + 1)) 100 "" _ base hb s6)
        fun r _ => ?_
      refine anchored_bind_nocreate _ _ _ _ (fun s7 => rfl) fun _ s7 => ?_
      exact anchored_nil _
    · rw [if_neg hd]
      exact anchored_nil base

/-! ### From anchoring to the tree shape (claim C9) -/

/-- An anchored list contains no parentless node. -/
theorem anchored_no_parentless :
    ∀ l : List RLMNode, ∀ base : Nat × Nat → Prop,
      anchoredNodes base l → ∀ n ∈ l, n.parentId ≠ none := by
  intro l
  induction l with
  | nil => intro base _ n hn; cases hn
  | cons m rest ih =>
    intro base h n hn
    rcases List.mem_cons.mp hn with rfl | hn2
    · obtain ⟨⟨q, _, hp, _⟩, _⟩ := h
      rw [hp]
      exact Option.some_ne_none q.1
    · exact ih _ h.2 n hn2

/-- Every node of an anchored list is parented on the base or on another
node of the list, one level deeper. -/
theorem anchored_parent_mem :
    ∀ l : List RLMNode, ∀ base : Nat × Nat → Prop,
      anchoredNodes base l → ∀ n ∈ l, ∀ pid, n.parentId = some pid →
        (∃ q, base q ∧ q.1 = pid ∧ n.depth = q.2 + 1) ∨
        (∃ m ∈ l, m.id = pid ∧ n.depth = m.depth + 1) := by
  intro l
  induction l with
  | nil => intro base _ n hn; cases hn
  | cons m rest ih =>
    intro base h n hn pid hpid
    obtain ⟨⟨q, hq, hp, hd⟩, hrest⟩ := h
    rcases List.mem_cons.mp hn with rfl | hn2
    · left
      rw [hp] at hpid
      injection hpid with hpid2
      exact ⟨q, hq, hpid2, hd⟩
    · rcases ih _ hrest n hn2 pid hpid with ⟨q2, hq2, hq2p, hq2d⟩ | ⟨m2, hm2, hm2i, hm2d⟩
      · rcases hq2 with heq | hb
        · right
          refine ⟨m, List.mem_cons_self m rest, ?_, ?_⟩
          · rw [← hq2p, heq]
          · rw [hq2d, heq]
        · left
          exact ⟨q2, hb, hq2p, hq2d⟩
      · right
        exact ⟨m2, List.mem_cons.mpr (Or.inr hm2), hm2i, hm2d⟩

/-- Shape of a run's created-node trace: a parentless root at depth 0,
followed only by nodes anchored to the root or to earlier nodes. -/
def rootedNodes : List RLMNode → Prop
  | [] => False
  | n :: rest =>
    n.parentId = none ∧ n.depth = 0 ∧
      anchoredNodes (fun q => q = (n.id, 0)) rest

/-- A rooted list satisfies the C9 tree shape: every parented node is one
level below its parent, which is itself in the list; exactly one node is
parentless; and the parentless node has depth 0. -/
theorem rooted_tree_props (l : List RLMNode) (h : rootedNodes l) :
    (∀ n ∈ l, ∀ pid, n.parentId = some pid →
      ∃ m ∈ l, m.id = pid ∧ n.depth = m.depth + 1) ∧
    (l.filter fun n => n.parentId = none).length = 1 ∧
    (∀ n ∈ l, n.parentId = none → n.depth = 0) := by
  cases l with
  | nil => cases h
  | cons root rest =>
    obtain ⟨hrp, hrd, hanch⟩ := h
    have hnopl := anchored_no_parentless rest _ hanch
    refine ⟨?_, ?_, ?_⟩
    · intro n hn pid hpid
      rcases List.mem_cons.mp hn with rfl | hn2
      · rw [hrp] at hpid
        simp at hpid
      · rcases anchored_parent_mem rest _ hanch n hn2 pid hpid with
          ⟨q, hq, hqp, hqd⟩ | ⟨m, hm, hmi, hmd⟩
        · refine ⟨root, List.mem_cons_self root rest, ?_, ?_⟩
          · rw [← hqp, hq]
          · rw [hqd, hq, hrd]
        · exact ⟨m, List.mem_cons.mpr (Or.inr hm), hmi, hmd⟩
    · rw [List.filter_cons]
      rw [if_pos (by simp [hrp])]
      rw [List.filter_eq_nil_iff.mpr fun n hn => by simp [hnopl n hn]]
      rfl
    · intro n hn hpn
      rcases List.mem_cons.mp hn with rfl | hn2
      · exact hrd
      · exact absurd hpn (hnopl n hn2)

/-- The run body's created trace is rooted: a fresh root id is drawn, the
parentless depth-0 root node is emitted, and every later node is anchored
to it. -/
theorem rooted_run (mkR : Nat → RLMNode) (k : Nat → M Unit) (s : S)
    (hpar : ∀ i, (mkR i).parentId = none)
    (hdep : ∀ i, (mkR i).depth = 0)
    (hid : ∀ i, (mkR i).id = i)
    (hk : ∀ i s2, anchoredNodes (fun q => q = (i, 0)) (createdOf ((k i) s2).evs)) :
    rootedNodes (createdOf
      ((freshId >>= fun rootId =>
        emit (RLMEvent.nodeCreated (mkR rootId)) >>= fun _ => k rootId) s).evs) := by
  show rootedNodes (mkR s.idCtr ::
    createdOf ((k s.idCtr) { s with idCtr := s.idCtr + 1 }).evs)
  refine ⟨hpar s.idCtr, hdep s.idCtr, ?_⟩
  rw [hid s.idCtr]
  exact hk s.idCtr _

/-- The terminal-reporting tail creates no node. -/
theorem createdOf_routeFinish (env : Env) (rootId : Nat) (r : ExecutionResult)
    (s : S) :
    createdOf ((routeFinish env rootId r) s).evs = [] := by
  unfold routeFinish
  by_cases h1 : r.finalResult.getD "" ≠ ""
  · rw [if_pos h1]
    rfl
  · rw [if_neg h1]
    by_cases h2 : r.error.getD "" ≠ ""
    · rw [if_pos h2]
      rfl
    · rw [if_neg h2]
      rfl

/-- The whole try-body's created trace is rooted. -/
theorem routeTryBody_rooted (env : Env) (req : RLMExecuteRequest) (ctx : String)
    (maxD : Nat) (s : S) :
    rootedNodes (createdOf ((routeTryBody env req ctx maxD) s).evs) := by
  simp only [routeTryBody]
  refine rooted_run _ _ s (fun i => rfl) (fun i => rfl) (fun i => rfl) ?_
  intro i s2
  dsimp only
  refine anchored_bind_nocreate _ _ s2 _ (fun s3 => rfl) fun _ s3 => ?_
  refine anchored_bind_nocreate _ _ s3 _ (fun s4 => rfl) fun _ s4 => ?_
  refine anchored_bind_nocreate _ _ s4 _ (fun s5 => rfl) fun llmText s5 => ?_
  refine anchored_bind_nocreate _ _ s5 _ (fun s6 => rfl) fun _ s6 => ?_
  refine anchored_bind_nocreate _ _ s6 _ (fun s7 => rfl) fun _ s7 => ?_
  refine anchored_bind_nocreate _ _ s7 _
    (fun s8 => createdOf_createRLMSandboxM env _ s8) fun pre s8 => ?_
  refine anchored_bind _ _ s8 _ ?_ ?_
  · simp only [executeWithLlmSupport]
    exact anchored_execLoopGo env _ pre ctx i 0 _
      (anchored_handlerGo env maxD ctx (maxD - 1) 0) 100 "" _
      (fun q => q = (i, 0)) rfl s8
  · intro result hres
    rw [createdOf_routeFinish]
    exact anchored_nil _

/-- The created trace of the full stream (with its catch wrapper) is
rooted: the catch handler creates no node. -/
theorem routeEvents_rooted (env : Env) (req : RLMExecuteRequest) :
    rootedNodes (createdOf (routeEvents env req)) := by
  unfold routeEvents routeBody tryCatch
  have h := routeTryBody_rooted env req
    (jsOr (req.contextId.getD "") env.newContextId) (req.maxDepth.getD 1) {}
  cases hrb : (routeTryBody env req (jsOr (req.contextId.getD "") env.newContextId)
      (req.maxDepth.getD 1)) {} with
  | mk r tr st =>
    rw [hrb] at h
    dsimp only at h
    cases r with
    | ok u =>
      dsimp only
      exact h
    | error er =>
      dsimp only
      show rootedNodes (createdOf (tr ++ [RLMEvent.executionError er]))
      rw [createdOf_append]
      rw [show createdOf [RLMEvent.executionError er] = [] from rfl, List.append_nil]
      exact h

/-! ### Keys through the fold (claim C9) -/

/-- The identity/parent/depth key of a node: the reducer never changes it
on any update, it is fixed at node creation. -/
def nodeKey (n : RLMNode) : Nat × Option Nat × Nat := (n.id, n.parentId, n.depth)

/-- One reducer step preserves the keys of existing nodes and appends the
keys of the nodes the event creates. -/
theorem reducer_keys (st : RLMTreeState) (e : RLMEvent) :
    ((treeStateReducer st e).nodes).map nodeKey =
      st.nodes.map nodeKey ++ (createdOf [e]).map nodeKey := by
  cases e with
  | nodeCreated n =>
    show (st.nodes ++ [n]).map nodeKey = st.nodes.map nodeKey ++ [n].map nodeKey
    rw [List.map_append]
  | executionComplete r =>
    show st.nodes.map nodeKey = st.nodes.map nodeKey ++ []
    rw [List.append_nil]
  | executionError r =>
    show st.nodes.map nodeKey = st.nodes.map nodeKey ++ []
    rw [List.append_nil]
  | nodeStatus nid stt =>
    show ((st.nodes.map _).map nodeKey) = st.nodes.map nodeKey ++ []
    rw [List.append_nil, List.map_map]
    refine List.map_congr_left fun n hn => ?_
    by_cases hx : n.id = nid <;> simp [hx, nodeKey, Function.comp]
  | nodeOutput nid o =>
    show ((st.nodes.map _).map nodeKey) = st.nodes.map nodeKey ++ []
    rw [List.append_nil, List.map_map]
    refine List.map_congr_left fun n hn => ?_
    by_cases hx : n.id = nid <;> simp [hx, nodeKey, Function.comp]
  | nodeLlmStart nid p =>
    show ((st.nodes.map _).map nodeKey) = st.nodes.map nodeKey ++ []
    rw [List.append_nil, List.map_map]
    refine List.map_congr_left fun n hn => ?_
    by_cases hx : n.id = nid <;> simp [hx, nodeKey, Function.comp]
  | nodeLlmEnd nid r =>
    show ((st.nodes.map _).map nodeKey) = st.nodes.map nodeKey ++ []
    rw [List.append_nil, List.map_map]
    refine List.map_congr_left fun n hn => ?_
    by_cases hx : n.id = nid <;> simp [hx, nodeKey, Function.comp]
  | nodeError nid er =>
    show ((st.nodes.map _).map nodeKey) = st.nodes.map nodeKey ++ []
    rw [List.append_nil, List.map_map]
    refine List.map_congr_left fun n hn => ?_
    by_cases hx : n.id = nid <;> simp [hx, nodeKey, Function.comp]

/-- Folding preserves keys: the folded nodes are, key for key, the created
nodes of the event sequence appended to the initial ones. -/
theorem foldl_keys :
    ∀ evs : List RLMEvent, ∀ st : RLMTreeState,
      ((evs.foldl treeStateReducer st).nodes).map nodeKey =
        st.nodes.map nodeKey ++ (createdOf evs).map nodeKey := by
  intro evs
  induction evs with
  | nil =>
    intro st
    simp [createdOf]
  | cons e evs ih =>
    intro st
    rw [List.foldl_cons, ih, reducer_keys st e]
    have hsplit : createdOf (e :: evs) = createdOf [e] ++ createdOf evs := by
      rw [← createdOf_append]
      rfl
    rw [hsplit, List.map_append, List.append_assoc]

/-- Keys of the folded tree are exactly the keys of the created nodes. -/
theorem foldTree_keys (evs : List RLMEvent) :
    ((foldTree evs).nodes).map nodeKey = (createdOf evs).map nodeKey := by
  simp only [foldTree]
  rw [foldl_keys]
  rfl

/-- Key-equal lists represent each node of one by a key-equal node of the
other. -/
theorem key_transfer {l1 l2 : List RLMNode} (h : l1.map nodeKey = l2.map nodeKey) :
    ∀ n ∈ l1, ∃ c ∈ l2, c.id = n.id ∧ c.parentId = n.parentId ∧ c.depth = n.depth := by
  intro n hn
  have hmem : nodeKey n ∈ l2.map nodeKey := by
    rw [← h]
    exact List.mem_map_of_mem _ hn
  obtain ⟨c, hc, hck⟩ := List.mem_map.mp hmem
  have h1 : c.id = n.id := congrArg Prod.fst hck
  have h2 : c.parentId = n.parentId := congrArg (fun k => k.2.1) hck
  have h3 : c.depth = n.depth := congrArg (fun k => k.2.2) hck
  exact ⟨c, hc, h1, h2, h3⟩

/-- Key-equal lists have the same number of parentless nodes. -/
theorem filter_parentless_length {l1 l2 : List RLMNode}
    (h : l1.map nodeKey = l2.map nodeKey) :
    (l1.filter fun n => n.parentId = none).length =
      (l2.filter fun n => n.parentId = none).length := by
  have hc : ∀ l : List RLMNode,
      (l.filter fun n => n.parentId = none).length =
        ((l.map nodeKey).filter fun k => k.2.1 = none).length := by
    intro l
    induction l with
    | nil => rfl
    | cons n rest ih =>
      rw [List.map_cons, List.filter_cons, List.filter_cons]
      by_cases hx : n.parentId = none
      · rw [if_pos (by simp [hx]), if_pos (by simp [nodeKey, hx])]
        simp [ih]
      · rw [if_neg (by simp [hx]), if_neg (by simp [nodeKey, hx])]
        exact ih
  rw [hc l1, hc l2, h]

/-- C9: for every oracle environment and every request, folding the
emitted event stream into `RLMTreeState` yields a tree in which every
node with a `parentId` sits one level below its parent, which is itself
in the tree (`depth(child) = depth(parent) + 1`); exactly one node has no
parent; and that parentless node is the root created at depth 0. -/
theorem C9_parent_depth (env : Env) (req : RLMExecuteRequest) :
    (∀ n ∈ (foldTree (routeEvents env req)).nodes, ∀ pid, n.parentId = some pid →
      ∃ m ∈ (foldTree (routeEvents env req)).nodes,
        m.id = pid ∧ n.depth = m.depth + 1) ∧
    ((foldTree (routeEvents env req)).nodes.filter fun n =>
      n.parentId = none).length = 1 ∧
    (∀ n ∈ (foldTree (routeEvents env req)).nodes,
      n.parentId = none → n.depth = 0) := by
  have hkeys := foldTree_keys (routeEvents env req)
  have hprops := rooted_tree_props _ (routeEvents_rooted env req)
  refine ⟨?_, ?_, ?_⟩
  · intro n hn pid hpid
    obtain ⟨c, hc, hci, hcp, hcd⟩ := key_transfer hkeys n hn
    obtain ⟨m2, hm2, hm2i, hm2d⟩ := hprops.1 c hc pid (by rw [hcp, hpid])
    obtain ⟨m, hm, hmi, hmp, hmd⟩ := key_transfer hkeys.symm m2 hm2
    refine ⟨m, hm, ?_, ?_⟩
    · rw [hmi, hm2i]
    · rw [← hcd, hm2d, hmd]
  · rw [filter_parentless_length hkeys]
    exact hprops.2.1
  · intro n hn hpn
    obtain ⟨c, hc, hci, hcp, hcd⟩ := key_transfer hkeys n hn
    rw [← hcd]
    exact hprops.2.2 c hc (by rw [hcp, hpn])

/-- An environment whose first run delegates one single query and whose
second run exits cleanly: the folded tree holds the root and one child. -/
def childEnv : Env :=
  { runRes := fun i _ =>
      if i = 0 then .ok "__LLM_QUERY_START__\nq\n__LLM_QUERY_END__\n" (some 42)
      else .ok "done" (some 0)
    genText := fun _ _ _ _ => .ok "ans"
    sandboxNew := fun _ => .ok ()
    appendRes := .ok ()
    newContextId := "ctx" }

/-- Witness for `C9_parent_depth`: a concrete two-node run has exactly one
parentless folded node, and the folded tree is not trivial. -/
theorem C9_parent_depth_witness :
    ((foldTree (routeEvents childEnv reqSmall)).nodes.filter fun n =>
      n.parentId = none).length = 1 ∧
      (foldTree (routeEvents childEnv reqSmall)).nodes.length = 2 :=
  ⟨(C9_parent_depth childEnv reqSmall).2.1, by decide⟩

end RLM
